import Mathlib

/-!
Shallow embedding of the publish reconciliation engine of
`markdown-confluence` (`src/Publisher.ts`), together with proofs that
settle the frozen claims about it.

Conventions used throughout:
* JavaScript strings are Lean `String`s; binary buffers are carried as
  `String`s (their byte content), since only equality and hashing of the
  bytes matter to the program.
* `undefined`/`null` fields become `Option`s.
* MD5 digests (SparkMD5) are an abstract function `md5 : String → String`
  supplied by the environment: the program only ever compares digests for
  equality and embeds them into filenames.
* Every remote / adaptor interaction is recorded in a trace of `Call`s,
  and the responses are supplied by an `Env` of total response functions.
* The ADF tree traversal of `@atlaskit/adf-utils` is recursion into the
  (possibly replaced) node's content, which is unbounded in general, so
  the embedding takes a fuel argument bounding the recursion depth; every
  theorem below is either fuel-independent or stated at a fuel exceeding
  the depth of its concrete input, where the embedding agrees exactly
  with the JavaScript semantics.
-/

/-! ## String utilities (JS `String.split`, `startsWith`, `path` helpers) -/

/-- JS `str.split(sep)` for a one-character separator, on the character
list: `"".split` is `[""]`, separators at the ends produce empty parts. -/
def splitCharList (c : Char) : List Char → List (List Char)
  | [] => [[]]
  | x :: xs =>
    if x = c then [] :: splitCharList c xs
    else
      match splitCharList c xs with
      | [] => [[x]]
      | h :: t => (x :: h) :: t

/-- Inverse of `splitCharList`: join parts with the separator character. -/
def joinCharList (c : Char) : List (List Char) → List Char
  | [] => []
  | [x] => x
  | x :: y :: t => x ++ c :: joinCharList c (y :: t)

/-- `filePath.split(path.sep)` with `path.sep = "/"`. -/
def splitPath (s : String) : List String :=
  (splitCharList '/' s.data).map String.mk

/-- `parts.join(path.sep)` with `path.sep = "/"`. -/
def joinSep (l : List String) : String :=
  String.mk (joinCharList '/' (l.map String.data))

/-- JS `s.startsWith(p)`. -/
def strStartsWith (s p : String) : Bool :=
  p.data.isPrefixOf s.data

/-- JS `url.split("://")`, specialised to the separator used by the
source (`imageUrl.split("://")`). -/
def splitOnSchemeSep : List Char → List (List Char)
  | ':' :: '/' :: '/' :: rest => [] :: splitOnSchemeSep rest
  | x :: rest =>
    match splitOnSchemeSep rest with
    | [] => [[x]]
    | h :: t => (x :: h) :: t
  | [] => [[]]

/-- JS `imageUrl.split("://")[1]`: the part between the first and second
occurrence of `"://"`, absent when the separator does not occur. -/
def afterScheme (url : String) : Option String :=
  ((splitOnSchemeSep url.data).map String.mk).get? 1

/-- The part of `rest` before its last `'.'` (which `rest` must contain);
helper for `dropExt`. -/
def takeBeforeLastDot (l : List Char) : List Char :=
  (((l.reverse).dropWhile (fun c => c != '.')).drop 1).reverse

/-- Node's `path.parse(s).name` for a slash-free basename: strip the part
from the last dot on, except that a dot at position 0 with no later dot
does not count as an extension (`".hidden"` keeps its name). -/
def dropExt (s : String) : String :=
  match s.data with
  | [] => s
  | c0 :: rest =>
    if rest.contains '.' then String.mk (c0 :: takeBeforeLastDot rest) else s

/-- Node's `path.join(a, b)` as used here (neither part has a trailing
separator, `a` may be empty). -/
def joinPathJS (a b : String) : String :=
  if a = "" then b else a ++ "/" ++ b

/-! ## The ADF document model

A JSON ADF node: a type tag, an attribute object (string-valued keys),
an optional `marks` array, an optional `text`, an optional `content`
array. All attribute values written or read by the program are strings,
so the attribute object is a string-to-string association list. -/

/-- A mark on a text node (e.g. a `link` mark carrying an `href`). -/
structure Mark where
  type : String
  attrs : Option (List (String × String))
deriving DecidableEq, Repr

/-- An ADF entity. -/
inductive ADF where
  | mk (type : String) (attrs : List (String × String))
      (marks : Option (List Mark)) (text : Option String)
      (content : Option (List ADF))

def ADF.type : ADF → String
  | .mk t _ _ _ _ => t

def ADF.attrs : ADF → List (String × String)
  | .mk _ a _ _ _ => a

def ADF.marks : ADF → Option (List Mark)
  | .mk _ _ m _ _ => m

def ADF.text : ADF → Option String
  | .mk _ _ _ x _ => x

def ADF.content : ADF → Option (List ADF)
  | .mk _ _ _ _ c => c

/-- Replace the content array of a node (used by the traversal when it
rebuilds a node's children). -/
def ADF.setContent : ADF → List ADF → ADF
  | .mk t a m x _, l => .mk t a m x (some l)

/-- JS object read `attrs.k`: first binding wins (JS object keys are
unique; the program only ever builds unique-key attribute objects). -/
def lookupAttr (l : List (String × String)) (k : String) : Option String :=
  (l.find? (fun p => p.1 == k)).map (fun p => p.2)

/-- JS object write `attrs.k = v`: replace in place, or append. -/
def setAttr : List (String × String) → String → String → List (String × String)
  | [], k, v => [(k, v)]
  | (k', v') :: rest, k, v =>
    if k' == k then (k, v) :: rest else (k', v') :: setAttr rest k v

/-- JS `delete attrs.k`. -/
def eraseAttr (l : List (String × String)) (k : String) : List (String × String) :=
  l.filter (fun p => p.1 != k)

/-- `node?.content?.at(0)?.text`. -/
def firstInnerText (content : Option (List ADF)) : Option String :=
  (content.bind List.head?).bind ADF.text

/-- Result of an `@atlaskit/adf-utils` traverse visitor: `false` removes
the node, `undefined` keeps it unchanged, a node replaces it. -/
inductive VisitResult where
  | keep
  | remove
  | replace (n : ADF)

/-- `@atlaskit/adf-utils` `traverse`: visit the node; `false` removes it,
`undefined` keeps it, a returned node replaces it; then recurse into the
(possibly replaced) node's content, dropping removed children. `fuel`
bounds the recursion depth (see the module comment); at fuel 0 the node
is returned unvisited. -/
def traverseADF (vis : ADF → VisitResult) : Nat → ADF → Option ADF
  | 0, n => some n
  | fuel + 1, n =>
    match vis n with
    | .remove => none
    | r =>
      let m := match r with
        | .replace n' => n'
        | _ => n
      match m.content with
      | none => some m
      | some l => some (m.setContent (l.filterMap (traverseADF vis fuel)))

/-- `@atlaskit/adf-utils` `filter`: all nodes satisfying the predicate, in
pre-order (the traversal visits a node before its children). -/
def filterADF (pred : ADF → Bool) : Nat → ADF → List ADF
  | 0, _ => []
  | fuel + 1, n =>
    (if pred n then [n] else [])
      ++ ((n.content.getD []).map (filterADF pred fuel)).flatten

/-! ## Domain data types (from `src/Publisher.ts`) -/

/-- `AdfFile` (the per-document record produced by the converter). The
`frontmatter` mapping carries values the core never inspects, so it is a
string-to-string association list here. -/
structure AdfFile where
  folderName : String
  absoluteFilePath : String
  fileName : String
  contents : ADF
  pageTitle : String
  frontmatter : List (String × String)
  tags : List String
  pageId : Option String
  dontChangeParentPageId : Bool
  spaceKey : Option String

/-- The fields of the external `MarkdownFile` record the core itself
reads; the remaining fields are consumed only by the excluded
markdown-to-ADF converter. -/
structure MarkdownFile where
  absoluteFilePath : String
  fileName : String

/-- `ConfluenceNode` (a flattened page binding to publish). -/
structure ConfluenceNode where
  file : AdfFile
  version : Nat
  existingAdf : String
  parentPageId : String

/-- `FilePublishResult`. -/
structure FilePublishResult where
  successfulUpload : Bool
  absoluteFilePath : String
  reason : Option String

/-- One entry of `UploadResults.failedFiles`. -/
structure FailedFile where
  fileName : String
  reason : String
deriving DecidableEq

/-- `UploadResults` (from `CompletedView`). -/
structure UploadResults where
  successfulUploads : Nat
  errorMessage : Option String
  failedFiles : List FailedFile

/-- `UploadedImageData`. -/
structure UploadedImageData where
  filename : Option String
  id : String
  collection : String
deriving DecidableEq

/-- `ChartData` as consumed by the mermaid renderer: a name and the
diagram source text. -/
structure ChartData where
  name : String
  data : String
deriving DecidableEq

/-- One element of the remote attachment listing, flattened:
`title`, `metadata.comment` (the stored content fingerprint),
`extensions.fileId` and `extensions.collectionName`. -/
structure Attachment where
  title : String
  comment : String
  fileId : String
  collectionName : String

/-- One value of the `currentAttachments` record built from the listing. -/
structure AttachRec where
  filehash : String
  attachmentId : String
  collectionName : String

/-- The parts of a `createOrUpdateAttachments` response the program
reads: `results[0].extensions.fileId` and `results[0].container.id`. -/
structure AttachResp where
  fileId : String
  containerId : String

/-- The result of `adaptor.readBinary`: raw contents plus the resolved
path and basename. -/
structure BinaryFile where
  contents : String
  filePath : String
  filename : String

/-- A remote content label: JS `item.label` and `item.name`. -/
structure Label where
  label : String
  name : String

/-- The ancestors entries of a remote page (only `id` is read). -/
structure Ancestor where
  id : String

/-- A remote page version object (only `number` is read). -/
structure VersionObj where
  number : Nat

/-- A remote space (only `key` is read). -/
structure Space where
  key : String

/-- The parts of a remote content response the program reads. The
`body` field collapses `body?.atlas_doc_format?.value` to one optional
string. The `results`/`size` pair of a search response is modelled as a
plain list whose length is `size` (the client keeps them consistent). -/
structure ContentResponse where
  id : String
  space : Option Space
  version : Option VersionObj
  body : Option String
  ancestors : Option (List Ancestor)

/-- The result record of `ensurePageExists`. -/
structure PageDetails where
  id : String
  title : String
  version : Nat
  existingAdf : Option String
  spaceKey : String

/-- The label objects pushed by `addLabelsToContent`; the JS field
`prefix` (always `"global"`) is named `prefixStr` here. -/
structure LabelToAdd where
  prefixStr : String
  name : String
deriving DecidableEq

/-- The update request built by `updatePageContent`: `ancestors` is
`none` when the field is omitted from the request object. -/
structure UpdateContentDetails where
  id : String
  ancestors : Option (List String)
  version : Nat
  title : String
  body : String
deriving DecidableEq

/-- One remote / adaptor / renderer interaction, as recorded in traces. -/
inductive Call where
  | getContentById (id : String)
  | getContent (spaceKey title : String)
  | createContent (spaceKey parentPageId title : String)
  | updateContent (details : UpdateContentDetails)
  | updateMarkdownPageId (absoluteFilePath id : String)
  | getLabels (id : String)
  | removeLabel (id name : String)
  | addLabels (id : String) (body : List LabelToAdd)
  | getAttachments (id : String)
  | createOrUpdateAttachments (pageId filename contents comment : String)
  | readBinary (fileName : Option String) (path : String)
  | renderMermaid (charts : List ChartData)
deriving DecidableEq

/-- Responses of all external collaborators, as total functions; every
embedded operation threads a `Call` trace next to its result.
`md5` stands for both SparkMD5 digest entry points (string hash and
ArrayBuffer digest); `stringifyAdf` is `JSON.stringify` applied to a
traversal result; `urlPathname`/`urlHash` are `new URL(·).pathname` and
`.hash` of a wikilink target. -/
structure Env where
  md5 : String → String
  stringifyAdf : Option ADF → String
  captureMermaidCharts : List ChartData → List (String × String)
  getAttachments : String → List Attachment
  createOrUpdateAttachments : String → String → String → String → AttachResp
  readBinary : Option String → String → Option BinaryFile
  getContentById : String → ContentResponse
  getContent : String → String → List ContentResponse
  createContent : String → String → String → ContentResponse
  getLabelsForContent : String → List Label
  urlPathname : String → String
  urlHash : String → String

/-- `true` exactly on the calls that write remote or persisted state. -/
def isWriteCall : Call → Bool
  | .createContent _ _ _ => true
  | .updateContent _ => true
  | .updateMarkdownPageId _ _ => true
  | .removeLabel _ _ => true
  | .addLabels _ _ => true
  | .createOrUpdateAttachments _ _ _ _ => true
  | _ => false

/-- `true` exactly on `updateContent` calls (body updates / version
increments happen only through these). -/
def isUpdateCall : Call → Bool
  | .updateContent _ => true
  | _ => false

/-- `true` exactly on label fetch/add/remove calls. -/
def isLabelCall : Call → Bool
  | .getLabels _ => true
  | .removeLabel _ _ => true
  | .addLabels _ _ => true
  | _ => false

/-- `true` exactly on the calls the asset upload pipeline can make. -/
def isUploadPipelineCall : Call → Bool
  | .renderMermaid _ => true
  | .getAttachments _ => true
  | .readBinary _ _ => true
  | .createOrUpdateAttachments _ _ _ _ => true
  | _ => false

/-- Bool test for `Except.error`. -/
def isErr {α : Type} : Except String α → Bool
  | .error _ => true
  | .ok _ => false

/-- JS template interpolation of a possibly-undefined value. -/
def showOpt : Option String → String
  | some s => s
  | none => "undefined"

/-! ## The Publisher operations (from `src/Publisher.ts`) -/

/-- The result record of `getMermaidFileName`. -/
structure MermaidDetails where
  uploadFilename : String
  mermaidText : String
deriving DecidableEq

/-- `getMermaidFileName`: substitute the fixed placeholder chart when the
content is nullish, then derive the upload filename from the MD5 of the
diagram text. -/
def getMermaidFileName (env : Env) (mermaidContent : Option String) : MermaidDetails :=
  let mermaidText := mermaidContent.getD "flowchart LR\nid1[Missing Chart]"
  let pathMd5 := env.md5 mermaidText
  let uploadFilename := "RenderedMermaidChart-" ++ pathMd5 ++ ".png"
  { uploadFilename := uploadFilename, mermaidText := mermaidText }

/-- The `ChartData` built for one mermaid code block in `uploadFiles`. -/
def chartDataOf (env : Env) (node : ADF) : ChartData :=
  let mermaidDetails := getMermaidFileName env (firstInnerText node.content)
  { name := mermaidDetails.uploadFilename, data := mermaidDetails.mermaidText }

/-- The predicate of the `mediaNodes` filter in `uploadFiles`. -/
def isMediaFileNode (node : ADF) : Bool :=
  node.type == "media" && lookupAttr node.attrs "type" == some "file"

/-- The predicate of the `mermaidNodes` filter in `uploadFiles`. -/
def isMermaidBlock (node : ADF) : Bool :=
  node.type == "codeBlock" && lookupAttr node.attrs "language" == some "mermaid"

/-- The `currentAttachments` record built by reducing the attachment
listing: keyed by title, later entries overwriting earlier ones. -/
def lookupAttachment (l : List Attachment) (k : String) : Option AttachRec :=
  (l.reverse.find? (fun a => a.title == k)).map
    (fun a => { filehash := a.comment, attachmentId := a.fileId, collectionName := a.collectionName })

/-- The `imageMap` record: keys are media URLs or mermaid filenames, a
`none` value is an explicit `null` entry; later writes overwrite earlier
ones. -/
def lookupImageMap (m : List (String × Option UploadedImageData)) (k : String) :
    Option (Option UploadedImageData) :=
  (m.reverse.find? (fun p => p.1 == k)).map (fun p => p.2)

/-- `uploadBuffer`: reuse the attachment when one with the same filename
and stored fingerprint exists in the listing snapshot, else issue a
`createOrUpdateAttachments` call. -/
def uploadBuffer (env : Env) (pageId uploadFilename fileBuffer : String)
    (currentAttachments : List Attachment) : List Call × UploadedImageData :=
  let currentFileMd5 := env.md5 fileBuffer
  match lookupAttachment currentAttachments uploadFilename with
  | some found =>
    if found.filehash == currentFileMd5 then
      ([], { filename := some uploadFilename, id := found.attachmentId,
             collection := found.collectionName })
    else
      let attachmentResponse := env.createOrUpdateAttachments pageId uploadFilename fileBuffer currentFileMd5
      ([Call.createOrUpdateAttachments pageId uploadFilename fileBuffer currentFileMd5],
       { filename := some uploadFilename, id := attachmentResponse.fileId,
         collection := "contentId-" ++ attachmentResponse.containerId })
  | none =>
    let attachmentResponse := env.createOrUpdateAttachments pageId uploadFilename fileBuffer currentFileMd5
    ([Call.createOrUpdateAttachments pageId uploadFilename fileBuffer currentFileMd5],
     { filename := some uploadFilename, id := attachmentResponse.fileId,
       collection := "contentId-" ++ attachmentResponse.containerId })

/-- `uploadFile`: resolve the referenced binary through the adaptor; when
unreadable the result is `null`; otherwise compose the upload filename
from the path fingerprint and reuse-or-upload exactly as `uploadBuffer`. -/
def uploadFile (env : Env) (pageId pageFilePath : String) (fileNameToUpload : Option String)
    (currentAttachments : List Attachment) : List Call × Option UploadedImageData :=
  match env.readBinary fileNameToUpload pageFilePath with
  | some testing =>
    let currentFileMd5 := env.md5 testing.contents
    let pathMd5 := env.md5 testing.filePath
    let uploadFilename := pathMd5 ++ "-" ++ testing.filename
    match lookupAttachment currentAttachments uploadFilename with
    | some found =>
      if found.filehash == currentFileMd5 then
        ([Call.readBinary fileNameToUpload pageFilePath],
         some { filename := fileNameToUpload, id := found.attachmentId,
                collection := found.collectionName })
      else
        let attachmentResponse := env.createOrUpdateAttachments pageId uploadFilename testing.contents currentFileMd5
        ([Call.readBinary fileNameToUpload pageFilePath,
          Call.createOrUpdateAttachments pageId uploadFilename testing.contents currentFileMd5],
         some { filename := fileNameToUpload, id := attachmentResponse.fileId,
                collection := "contentId-" ++ attachmentResponse.containerId })
    | none =>
      let attachmentResponse := env.createOrUpdateAttachments pageId uploadFilename testing.contents currentFileMd5
      ([Call.readBinary fileNameToUpload pageFilePath,
        Call.createOrUpdateAttachments pageId uploadFilename testing.contents currentFileMd5],
       some { filename := fileNameToUpload, id := attachmentResponse.fileId,
              collection := "contentId-" ++ attachmentResponse.containerId })
  | none => ([Call.readBinary fileNameToUpload pageFilePath], none)

/-- Helper for `dedupFirst`: drop elements already seen. -/
def dedupFirstAux {α : Type} [DecidableEq α] (seen : List α) : List α → List α
  | [] => []
  | x :: xs =>
    if x ∈ seen then dedupFirstAux seen xs
    else x :: dedupFirstAux (x :: seen) xs

/-- First-occurrence deduplication: JS `new Set(list).values()` for a
list of primitive values (strings / undefined). -/
def dedupFirst {α : Type} [DecidableEq α] (l : List α) : List α :=
  dedupFirstAux [] l

/-- The sequential loop over deduplicated media URLs in `uploadFiles`.
A `none` URL (a media-file node without a `url` attribute) makes the JS
crash on `imageUrl.split`, which the embedding reports as an error. -/
def mediaUploadLoop (env : Env) (pageId pageFilePath : String)
    (currentAttachments : List Attachment) :
    List (Option String) → List Call → List (String × Option UploadedImageData) →
    List Call × Except String (List (String × Option UploadedImageData))
  | [], tr, m => (tr, .ok m)
  | none :: _, tr, _ =>
    (tr, .error "TypeError: Cannot read properties of undefined (reading 'split')")
  | some imageUrl :: rest, tr, m =>
    let filename := afterScheme imageUrl
    let step := uploadFile env pageId pageFilePath filename currentAttachments
    mediaUploadLoop env pageId pageFilePath currentAttachments rest
      (tr ++ step.1) (m ++ [(imageUrl, step.2)])

/-- The sequential loop over rendered mermaid images in `uploadFiles`. -/
def mermaidUploadLoop (env : Env) (pageId : String)
    (currentAttachments : List Attachment) :
    List (String × String) → List Call → List (String × Option UploadedImageData) →
    List Call × List (String × Option UploadedImageData)
  | [], tr, m => (tr, m)
  | (name, buf) :: rest, tr, m =>
    let step := uploadBuffer env pageId name buf currentAttachments
    mermaidUploadLoop env pageId currentAttachments rest
      (tr ++ step.1) (m ++ [(name, some step.2)])

/-- The rewrite pass of `uploadFiles` (the visitors handed to
`traverse`): resolved `file` media nodes get collection and id and lose
their `url`; resolved mermaid code blocks become a centered
`mediaSingle`; everything else — in particular any node whose image-map
entry is `null` or absent, and any mermaid block with falsy first text —
is kept unchanged (the visitor returns `undefined`). -/
def uploadRewriteVisitor (env : Env)
    (imageMap : List (String × Option UploadedImageData)) (n : ADF) : VisitResult :=
  if n.type == "media" then
    if lookupAttr n.attrs "type" == some "file" then
      match lookupAttr n.attrs "url" with
      | none => .keep
      | some url =>
        match lookupImageMap imageMap url with
        | none => .keep
        | some none => .keep
        | some (some mappedImage) =>
          .replace (ADF.mk n.type
            (eraseAttr (setAttr (setAttr n.attrs "collection" mappedImage.collection)
              "id" mappedImage.id) "url")
            n.marks n.text n.content)
    else .keep
  else if n.type == "codeBlock" then
    if lookupAttr n.attrs "language" == some "mermaid" then
      let mermaidContent := firstInnerText n.content
      if mermaidContent.getD "" == "" then .keep
      else
        let mermaidFilename := getMermaidFileName env mermaidContent
        match lookupImageMap imageMap mermaidFilename.uploadFilename with
        | none => .keep
        | some none => .keep
        | some (some mappedImage) =>
          .replace (ADF.mk "mediaSingle"
            (eraseAttr (setAttr n.attrs "layout" "center") "language")
            n.marks n.text
            (match n.content with
             | none => none
             | some _ => some [ADF.mk "media"
                 [("type", "file"), ("collection", mappedImage.collection),
                  ("id", mappedImage.id)] none none none]))
    else .keep
  else .keep

/-- `uploadFiles`: collect media and mermaid nodes, build the chart list
(the JS `new Set` wrapped around freshly mapped objects compares by
reference, so it deduplicates nothing — the list keeps one entry per
block), render, snapshot the attachment listing, upload media (URLs
deduplicated as strings) then rendered charts, and rewrite the body. -/
def uploadFiles (env : Env) (fuel : Nat) (pageId pageFilePath : String) (adr : ADF) :
    List Call × Except String (Option ADF) :=
  let mediaNodes := filterADF isMediaFileNode fuel adr
  let mermaidNodes := filterADF isMermaidBlock fuel adr
  let mermaidNodesToUpload := mermaidNodes.map (chartDataOf env)
  let mermaidChartsAsImages := env.captureMermaidCharts mermaidNodesToUpload
  let currentAttachments := env.getAttachments pageId
  let imagesToUpload := dedupFirst (mediaNodes.map (fun n => lookupAttr n.attrs "url"))
  let tr0 := [Call.renderMermaid mermaidNodesToUpload, Call.getAttachments pageId]
  match mediaUploadLoop env pageId pageFilePath currentAttachments imagesToUpload tr0 [] with
  | (tr, .error e) => (tr, .error e)
  | (tr, .ok imageMap1) =>
    let step2 := mermaidUploadLoop env pageId currentAttachments mermaidChartsAsImages tr imageMap1
    (step2.1, .ok (traverseADF (uploadRewriteVisitor env step2.2) fuel adr))

/-- `updatePageContent`: upload assets, serialize, and when the result
equals the stored remote body return early (no further calls); otherwise
issue the versioned update (ancestors omitted when
`dontChangeParentPageId` is set) and reconcile labels. The returned
Bool is the JS `return true` of the unchanged branch (`false` stands
for the implicit `undefined` return). -/
def updatePageContent (env : Env) (fuel : Nat) (pageId originFileAbsoluteFilePath : String)
    (adf : ADF) (parentPageId : String) (pageVersionNumber : Nat) (pageTitle : String)
    (currentContents : String) (labels : List String) (adfFile : AdfFile) :
    List Call × Except String Bool :=
  match uploadFiles env fuel pageId originFileAbsoluteFilePath adf with
  | (tr, .error e) => (tr, .error e)
  | (tr, .ok updatedAdf) =>
    let adr := env.stringifyAdf updatedAdf
    if currentContents == adr then (tr, .ok true)
    else
      let updateContentDetails : UpdateContentDetails :=
        { id := pageId,
          ancestors := if adfFile.dontChangeParentPageId then none else some [parentPageId],
          version := pageVersionNumber + 1,
          title := pageTitle,
          body := adr }
      let currentLabels := env.getLabelsForContent pageId
      let removeCalls :=
        (currentLabels.filter (fun existingLabel => !(labels.contains existingLabel.label))).map
          (fun existingLabel => Call.removeLabel pageId existingLabel.name)
      let labelsToAdd :=
        (labels.filter (fun newLabel =>
          currentLabels.all (fun item => !(item.label == newLabel)))).map
          (fun newLabel => ({ prefixStr := "global", name := newLabel } : LabelToAdd))
      let addCalls := if labelsToAdd.isEmpty then [] else [Call.addLabels pageId labelsToAdd]
      (tr ++ [Call.updateContent updateContentDetails, Call.getLabels pageId]
          ++ removeCalls ++ addCalls,
       .ok false)

/-- JS `currentPage.ancestors?.some((ancestor) => ancestor.id == topPageId)`
coerced by `!` (an undefined ancestors array counts as `false`). -/
def ancestorsHave (ancestors : Option (List Ancestor)) (topPageId : String) : Bool :=
  (ancestors.map (fun l => l.any (fun ancestor => ancestor.id == topPageId))).getD false

/-- `ensurePageExists`: three-way branch on stored page id / title search
/ creation, with the managed-subtree guard on a title-search match. -/
def ensurePageExists (env : Env) (file : AdfFile) (spaceKey parentPageId topPageId : String) :
    List Call × Except String PageDetails :=
  match file.pageId with
  | some pid =>
    let contentById := env.getContentById pid
    ([Call.getContentById pid],
     match contentById.space with
     | none => .error "Missing Space Key"
     | some s =>
       -- JS `!contentById.space?.key`: an empty string key is falsy too
       if s.key == "" then .error "Missing Space Key"
       else .ok { id := contentById.id, title := file.pageTitle,
                  version := (contentById.version.map VersionObj.number).getD 1,
                  existingAdf := contentById.body, spaceKey := s.key })
  | none =>
    match env.getContent spaceKey file.pageTitle with
    | currentPage :: _ =>
      if ancestorsHave currentPage.ancestors topPageId then
        ([Call.getContent spaceKey file.pageTitle,
          Call.updateMarkdownPageId file.absoluteFilePath currentPage.id],
         .ok { id := currentPage.id, title := file.pageTitle,
               version := (currentPage.version.map VersionObj.number).getD 1,
               existingAdf := currentPage.body, spaceKey := spaceKey })
      else
        ([Call.getContent spaceKey file.pageTitle],
         .error (file.pageTitle ++ " is trying to overwrite a page outside the page tree from the selected top page"))
    | [] =>
      let pageDetails := env.createContent spaceKey parentPageId file.pageTitle
      ([Call.getContent spaceKey file.pageTitle,
        Call.createContent spaceKey parentPageId file.pageTitle,
        Call.updateMarkdownPageId file.absoluteFilePath pageDetails.id],
       .ok { id := pageDetails.id, title := file.pageTitle,
             version := (pageDetails.version.map VersionObj.number).getD 1,
             existingAdf := pageDetails.body, spaceKey := spaceKey })

/-- `publishFile`: the whole page publish runs inside try/catch and never
throws; a rejection anywhere in the awaited chain (modelled as the
abstract outcome `upd node`, since the possible exceptions originate in
the external collaborators) becomes a failure record carrying the
document's absolute path and the `stringify-object` rendering of the
reason. The synchronous "Missing Page ID" throw is caught the same way. -/
def publishFile (stringifyObject : String → String)
    (upd : ConfluenceNode → Except String Unit) (node : ConfluenceNode) :
    FilePublishResult :=
  match node.file.pageId with
  | none =>
    { successfulUpload := false, absoluteFilePath := node.file.absoluteFilePath,
      reason := some (stringifyObject "Missing Page ID") }
  | some _ =>
    match upd node with
    | .ok _ =>
      { successfulUpload := true, absoluteFilePath := node.file.absoluteFilePath,
        reason := none }
    | .error e =>
      { successfulUpload := false, absoluteFilePath := node.file.absoluteFilePath,
        reason := some (stringifyObject e) }

/-- The body of the accumulation loop at the end of `doPublish`. -/
def collectStep (returnVal : UploadResults) (element : FilePublishResult) : UploadResults :=
  if element.successfulUpload then
    { returnVal with successfulUploads := returnVal.successfulUploads + 1 }
  else
    { returnVal with failedFiles := returnVal.failedFiles ++
        [{ fileName := element.absoluteFilePath,
           reason := element.reason.getD "No Reason Provided" }] }

/-- The accumulation loop at the end of `doPublish`: count successes,
collect failure records. -/
def collectResults (adrFiles : List FilePublishResult) : UploadResults :=
  adrFiles.foldl collectStep
    { successfulUploads := 0, errorMessage := none, failedFiles := [] }

/-- The wikilink-rewriting text visitor of `doPublish`. `fileMap` is the
corpus-wide filename-to-document map; URL decomposition of the wikilink
target is the environment's `urlPathname`/`urlHash`. A found target
rewrites the first mark's href (and upgrades the node to an `inlineCard`
when the visible text equals the pathname); a missing target removes the
first mark (the link annotation, by the guard) via the in-place
`marks.remove(marks[0])`. -/
def linkRewriteVisitor (env : Env) (confluenceBaseUrl : String)
    (fileMap : String → Option AdfFile) (n : ADF) : VisitResult :=
  if n.type == "text" then
    match n.marks with
    | some (mark0 :: restMarks) =>
      if mark0.type == "link" then
        match mark0.attrs with
        | some markAttrs =>
          match lookupAttr markAttrs "href" with
          | some href =>
            if strStartsWith href "wikilink" then
              let pathname := env.urlPathname href
              let hash := env.urlHash href
              let pagename := pathname ++ ".md"
              match fileMap pagename with
              | some linkPage =>
                let confluenceUrl := confluenceBaseUrl ++ "/wiki/spaces/"
                  ++ showOpt linkPage.spaceKey ++ "/pages/"
                  ++ showOpt linkPage.pageId ++ hash
                if n.text == some pathname then
                  .replace (ADF.mk "inlineCard" [("url", confluenceUrl)] none none n.content)
                else
                  .replace (ADF.mk n.type n.attrs
                    (some ({ mark0 with attrs := some (setAttr markAttrs "href" confluenceUrl) }
                      :: restMarks))
                    n.text n.content)
              | none =>
                .replace (ADF.mk n.type n.attrs (some restMarks) n.text n.content)
            else .keep
          | none => .keep
        | none => .keep
      else .keep
    | _ => .keep
  else .keep

/-! ## The Tree Builder (from the bottom of `src/Publisher.ts`) -/

/-- `TreeNode`: a folder-tree vertex. -/
inductive TreeNode where
  | mk (name : String) (children : List TreeNode) (file : Option AdfFile)

def TreeNode.name : TreeNode → String
  | .mk n _ _ => n

def TreeNode.children : TreeNode → List TreeNode
  | .mk _ c _ => c

def TreeNode.file : TreeNode → Option AdfFile
  | .mk _ _ f => f

/-- `createTreeNode`. -/
def createTreeNode (name : String) : TreeNode :=
  .mk name [] none

/-- The inner loop of `findCommonPath`: truncate the accumulated common
parts at the first index where they diverge from the next path's parts
(an index beyond the next path's length diverges too). -/
def commonPrefixOf : List String → List String → List String
  | [], _ => []
  | _ :: _, [] => []
  | a :: as, b :: bs => if a = b then a :: commonPrefixOf as bs else []

/-- The componentwise fold of `findCommonPath` over the remaining paths. -/
def findCommonParts (firstParts : List String) (rest : List (List String)) : List String :=
  rest.foldl commonPrefixOf firstParts

/-- `findCommonPath`. JS destructures the first element, so an empty
input would crash (`firstPath.split` of undefined); the claims only
concern non-empty inputs and the one caller guards non-emptiness. -/
def findCommonPath (paths : List String) : String :=
  match paths with
  | [] => ""
  | firstPath :: rest =>
    joinSep (findCommonParts (splitPath firstPath) (rest.map splitPath))

/-- Componentwise prefix-stripping. -/
def dropPrefixParts : List String → List String → List String
  | [], t => t
  | _ :: _, [] => []
  | f :: fs, t :: ts => if f = t then dropPrefixParts fs ts else t :: ts

/-- Node's `path.relative(fromPath, toPath)` for the only case arising in
`createFolderStructure`: `fromPath` is the common path of all absolute
paths, hence a componentwise ancestor of (or equal to) `toPath`. -/
def relativePath (fromPath toPath : String) : String :=
  joinSep (dropPrefixParts (splitPath fromPath) (splitPath toPath))

/-- Replace the first child with the given name (the one `find`
returned) by the updated child. -/
def replaceFirstNamed (n : String) (newChild : TreeNode) : List TreeNode → List TreeNode
  | [] => []
  | c :: cs => if c.name = n then newChild :: cs else c :: replaceFirstNamed n newChild cs

/-- The recursion of `addFileToTree` over the relative path's segments.
The JS function re-joins and re-splits the remaining segments on each
level, which is the identity on them (segments contain no separator), so
the recursion is on the segment list here. The shared `fileNames` set is
threaded as a list (only membership and insertion are used); the state
is returned updated, and a duplicate derived filename is the error of
the terminal case. -/
def addFileToTreeAux (convert : MarkdownFile → AdfFile) :
    TreeNode → MarkdownFile → List String → List String →
    Except String (TreeNode × List String)
  | _, _, [], _ =>
    .error "unreachable: String.split always returns a non-empty array"
  | treeNode, file, [folderName], fileNames =>
    if file.fileName ∈ fileNames then
      .error ("File name \"" ++ file.fileName ++ "\" is not unique across all folders.")
    else
      let adfFile := convert file
      .ok (.mk treeNode.name
            (treeNode.children ++ [.mk folderName [] (some adfFile)])
            treeNode.file,
           fileNames ++ [file.fileName])
  | treeNode, file, folderName :: rest₀ :: rest, fileNames =>
    match treeNode.children.find? (fun node => node.name == folderName) with
    | some childNode =>
      match addFileToTreeAux convert childNode file (rest₀ :: rest) fileNames with
      | .error e => .error e
      | .ok (childNode', fileNames') =>
        .ok (.mk treeNode.name (replaceFirstNamed folderName childNode' treeNode.children)
              treeNode.file,
             fileNames')
    | none =>
      let childNode := createTreeNode folderName
      match addFileToTreeAux convert childNode file (rest₀ :: rest) fileNames with
      | .error e => .error e
      | .ok (childNode', fileNames') =>
        .ok (.mk treeNode.name (treeNode.children ++ [childNode']) treeNode.file,
             fileNames')

/-- `addFileToTree`. -/
def addFileToTree (convert : MarkdownFile → AdfFile) (treeNode : TreeNode)
    (file : MarkdownFile) (relPath : String) (fileNames : List String) :
    Except String (TreeNode × List String) :=
  addFileToTreeAux convert treeNode file (splitPath relPath) fileNames

/-- The `markdownFiles.forEach(addFileToTree ...)` loop of
`createFolderStructure`, threading the mutated root and shared set. -/
def insertAll (convert : MarkdownFile → AdfFile) (commonPath : String) :
    List MarkdownFile → TreeNode → List String →
    Except String (TreeNode × List String)
  | [], t, names => .ok (t, names)
  | file :: rest, t, names =>
    match addFileToTree convert t file (relativePath commonPath file.absoluteFilePath) names with
    | .error e => .error e
    | .ok (t', names') => insertAll convert commonPath rest t' names'

/-- Modelled from the spec: the placeholder "empty folder" body
(`FolderFile.json`, which is not under `src/`) — an ADF document with
placeholder content; no claim depends on its value. -/
def folderFileADF : ADF :=
  ADF.mk "doc" [] none none
    (some [ADF.mk "paragraph" [] none none
      (some [ADF.mk "text" [] none (some "Folder") none])])

/-- Drop the first child satisfying the predicate (JS removes exactly
the object `find` returned, which is the first satisfying one). -/
def removeFirstMatching (pred : TreeNode → Bool) : List TreeNode → List TreeNode
  | [] => []
  | c :: cs => if pred c then cs else c :: removeFirstMatching pred cs

/-- The index-assignment pass `processNode` of `createFolderStructure`:
promote a child whose extension-less name equals the node's name, or
synthesize a placeholder document; then recurse into the children.
`fuel` bounds the tree depth (the JS recursion is structural on the
tree; any fuel at least the tree's depth gives the same result). -/
def processNode (commonPath : String) : Nat → TreeNode → TreeNode
  | 0, node => node
  | fuel + 1, node =>
    let pred := fun (child : TreeNode) => dropExt child.name == node.name
    let step : TreeNode :=
      match node.file with
      | some _ => node
      | none =>
        match node.children.find? pred with
        | some indexFile =>
          .mk node.name (removeFirstMatching pred node.children) indexFile.file
        | none =>
          .mk node.name node.children (some
            { folderName := node.name,
              absoluteFilePath := joinPathJS commonPath node.name,
              fileName := node.name ++ ".md",
              contents := folderFileADF,
              pageTitle := node.name,
              frontmatter := [],
              tags := [],
              pageId := none,
              dontChangeParentPageId := false,
              spaceKey := none })
    .mk step.name (step.children.map (processNode commonPath fuel)) step.file

/-- `createFolderStructure`: common path, insertion of every file with
the shared uniqueness set, then the index-assignment pass. An empty
input would crash in JS inside `findCommonPath`. -/
def createFolderStructure (convert : MarkdownFile → AdfFile) (fuel : Nat)
    (markdownFiles : List MarkdownFile) : Except String TreeNode :=
  match markdownFiles with
  | [] => .error "TypeError: Cannot read properties of undefined (reading 'split')"
  | _ :: _ =>
    let commonPath := findCommonPath (markdownFiles.map MarkdownFile.absoluteFilePath)
    let rootNode := createTreeNode commonPath
    match insertAll convert commonPath markdownFiles rootNode [] with
    | .error e => .error e
    | .ok (rootNode', _) => .ok (processNode commonPath fuel rootNode')

/-! ## C3: the common-path computation -/

theorem splitCharList_ne_nil (c : Char) (l : List Char) : splitCharList c l ≠ [] := by
  cases l with
  | nil => simp [splitCharList]
  | cons x xs =>
    simp only [splitCharList]
    by_cases hc : x = c
    · simp [hc]
    · simp only [if_neg hc]
      cases h : splitCharList c xs <;> simp

theorem joinCharList_splitCharList (c : Char) (l : List Char) :
    joinCharList c (splitCharList c l) = l := by
  induction l with
  | nil => rfl
  | cons x xs ih =>
    simp only [splitCharList]
    by_cases hc : x = c
    · subst hc
      simp only [if_pos rfl]
      cases hsp : splitCharList x xs with
      | nil => exact absurd hsp (splitCharList_ne_nil x xs)
      | cons h t =>
        rw [hsp] at ih
        simp only [joinCharList, List.nil_append]
        rw [ih]
    · simp only [if_neg hc]
      cases hsp : splitCharList c xs with
      | nil => exact absurd hsp (splitCharList_ne_nil c xs)
      | cons h t =>
        rw [hsp] at ih
        cases t with
        | nil =>
          simp only [joinCharList] at ih ⊢
          rw [ih]
        | cons y t' =>
          simp only [joinCharList, List.cons_append] at ih ⊢
          rw [ih]

theorem joinSep_splitPath (s : String) : joinSep (splitPath s) = s := by
  unfold joinSep splitPath
  rw [List.map_map]
  have hmap : (String.data ∘ String.mk) = id := by
    funext l
    rfl
  rw [hmap, List.map_id, joinCharList_splitCharList]

/-- List prefix relation (for stating the common-path property). -/
def IsPref {α : Type} (a b : List α) : Prop := ∃ t, a ++ t = b

theorem isPref_trans {α : Type} {a b c : List α} (h₁ : IsPref a b) (h₂ : IsPref b c) :
    IsPref a c := by
  obtain ⟨t₁, rfl⟩ := h₁
  obtain ⟨t₂, rfl⟩ := h₂
  exact ⟨t₁ ++ t₂, by rw [List.append_assoc]⟩

theorem commonPrefixOf_isPref_left (a b : List String) : IsPref (commonPrefixOf a b) a := by
  induction a generalizing b with
  | nil => exact ⟨[], rfl⟩
  | cons x xs ih =>
    cases b with
    | nil => exact ⟨x :: xs, rfl⟩
    | cons y ys =>
      simp only [commonPrefixOf]
      by_cases hxy : x = y
      · simp only [if_pos hxy]
        obtain ⟨t, ht⟩ := ih ys
        exact ⟨t, by simp [ht]⟩
      · exact ⟨x :: xs, by simp [if_neg hxy]⟩

theorem commonPrefixOf_isPref_right (a b : List String) : IsPref (commonPrefixOf a b) b := by
  induction a generalizing b with
  | nil => exact ⟨b, rfl⟩
  | cons x xs ih =>
    cases b with
    | nil => exact ⟨[], rfl⟩
    | cons y ys =>
      simp only [commonPrefixOf]
      by_cases hxy : x = y
      · subst hxy
        simp only [if_pos rfl]
        obtain ⟨t, ht⟩ := ih ys
        exact ⟨t, by simp [ht]⟩
      · exact ⟨y :: ys, by simp [if_neg hxy]⟩

theorem commonPrefixOf_greatest {c a b : List String} (ha : IsPref c a) (hb : IsPref c b) :
    IsPref c (commonPrefixOf a b) := by
  induction c generalizing a b with
  | nil => exact ⟨commonPrefixOf a b, rfl⟩
  | cons x xs ih =>
    obtain ⟨ta, hta⟩ := ha
    obtain ⟨tb, htb⟩ := hb
    cases a with
    | nil => exact absurd hta (by simp)
    | cons y ys =>
      cases b with
      | nil => exact absurd htb (by simp)
      | cons z zs =>
        simp only [List.cons_append, List.cons.injEq] at hta htb
        obtain ⟨rfl, hta'⟩ := hta
        obtain ⟨rfl, htb'⟩ := htb
        simp only [commonPrefixOf, if_pos rfl]
        obtain ⟨t, ht⟩ := ih ⟨ta, hta'⟩ ⟨tb, htb'⟩
        exact ⟨t, by simp [ht]⟩

theorem findCommonParts_isPref_first (firstParts : List String) (rest : List (List String)) :
    IsPref (findCommonParts firstParts rest) firstParts := by
  induction rest generalizing firstParts with
  | nil => exact ⟨[], List.append_nil _⟩
  | cons r rs ih =>
    have h1 : IsPref (findCommonParts (commonPrefixOf firstParts r) rs)
        (commonPrefixOf firstParts r) := ih _
    exact isPref_trans h1 (commonPrefixOf_isPref_left firstParts r)

theorem findCommonParts_isPref_mem (firstParts : List String) (rest : List (List String))
    (q : List String) (hq : q ∈ rest) : IsPref (findCommonParts firstParts rest) q := by
  induction rest generalizing firstParts with
  | nil => exact absurd hq (List.not_mem_nil q)
  | cons r rs ih =>
    rcases List.mem_cons.mp hq with rfl | hq'
    · exact isPref_trans (findCommonParts_isPref_first (commonPrefixOf firstParts q) rs)
        (commonPrefixOf_isPref_right firstParts q)
    · exact ih _ hq'

theorem findCommonParts_greatest {c : List String} (firstParts : List String)
    (rest : List (List String)) (hfirst : IsPref c firstParts)
    (hrest : ∀ q ∈ rest, IsPref c q) : IsPref c (findCommonParts firstParts rest) := by
  induction rest generalizing firstParts with
  | nil => exact hfirst
  | cons r rs ih =>
    exact ih _ (commonPrefixOf_greatest hfirst (hrest r (List.mem_cons_self r rs)))
      (fun q hq => hrest q (List.mem_cons_of_mem r hq))

/-- C3 counterexample: for the single-document input `["/a/b/doc.md"]`,
`findCommonPath` returns the document's full path `"/a/b/doc.md"`, not
its parent directory `"/a/b"` as the claim states (the JS code splits
the first path and, with no other path to truncate against, joins all of
its components back, filename included). -/
theorem findCommonPath_single_counterexample :
    findCommonPath ["/a/b/doc.md"] = "/a/b/doc.md" ∧
      findCommonPath ["/a/b/doc.md"] ≠ "/a/b" := by
  constructor
  · rfl
  · intro h
    have : ("/a/b/doc.md" : String) = "/a/b" := by
      rw [← h]
      rfl
    simp at this

/-- C3 (amended): for every non-empty list of document paths,
`findCommonPath` joins the componentwise longest common prefix of the
split paths — it is a componentwise prefix of every input path, and any
common componentwise prefix of all input paths is a prefix of it; for a
single-document input it returns that document's full path (including
the filename), not the parent directory. -/
theorem findCommonPath_longest_common (p : String) (rest : List String) :
    findCommonPath (p :: rest)
        = joinSep (findCommonParts (splitPath p) (rest.map splitPath)) ∧
      (∀ q ∈ p :: rest,
        IsPref (findCommonParts (splitPath p) (rest.map splitPath)) (splitPath q)) ∧
      (∀ c : List String, (∀ q ∈ p :: rest, IsPref c (splitPath q)) →
        IsPref c (findCommonParts (splitPath p) (rest.map splitPath))) ∧
      findCommonPath [p] = p := by
  refine ⟨rfl, ?_, ?_, ?_⟩
  · intro q hq
    rcases List.mem_cons.mp hq with rfl | hq'
    · exact findCommonParts_isPref_first _ _
    · exact findCommonParts_isPref_mem _ _ _ (List.mem_map_of_mem splitPath hq')
  · intro c hc
    refine findCommonParts_greatest _ _ (hc p (List.mem_cons_self p rest)) ?_
    intro q hq
    obtain ⟨q₀, hq₀, rfl⟩ := List.mem_map.mp hq
    exact hc q₀ (List.mem_cons_of_mem p hq₀)
  · show joinSep (findCommonParts (splitPath p) []) = p
    exact joinSep_splitPath p

/-- C3 witness: the amended statement applied at a concrete input. -/
theorem findCommonPath_longest_common_witness :
    findCommonPath ["/a/b/x.md", "/a/c/y.md"]
        = joinSep (findCommonParts (splitPath "/a/b/x.md") ([ "/a/c/y.md" ].map splitPath)) ∧
      (∀ q ∈ ["/a/b/x.md", "/a/c/y.md"],
        IsPref (findCommonParts (splitPath "/a/b/x.md") ([ "/a/c/y.md" ].map splitPath))
          (splitPath q)) ∧
      (∀ c : List String, (∀ q ∈ ["/a/b/x.md", "/a/c/y.md"], IsPref c (splitPath q)) →
        IsPref c (findCommonParts (splitPath "/a/b/x.md") ([ "/a/c/y.md" ].map splitPath))) ∧
      findCommonPath ["/a/b/x.md"] = "/a/b/x.md" :=
  findCommonPath_longest_common "/a/b/x.md" ["/a/c/y.md"]

/-! ## C1: the managed-subtree guard of `ensurePageExists` -/

/-- C1: when a document carries no stored remote page identifier and the
title search in the target space returns a match, `ensurePageExists`
fails if and only if the matched page's ancestor chain does not contain
the configured top-level page identifier; and in that error case the
whole trace is just the (read-only) search call, so no page-id
persistence, no create and no update is performed against the matched
page. -/
theorem ensurePageExists_subtree_guard (env : Env) (file : AdfFile)
    (spaceKey parentPageId topPageId : String) (page : ContentResponse)
    (rest : List ContentResponse)
    (hpid : file.pageId = none)
    (hsearch : env.getContent spaceKey file.pageTitle = page :: rest) :
    (isErr (ensurePageExists env file spaceKey parentPageId topPageId).2 = true
        ↔ ancestorsHave page.ancestors topPageId = false) ∧
      (ancestorsHave page.ancestors topPageId = false →
        (ensurePageExists env file spaceKey parentPageId topPageId).1
            = [Call.getContent spaceKey file.pageTitle] ∧
          ∀ c ∈ (ensurePageExists env file spaceKey parentPageId topPageId).1,
            isWriteCall c = false) := by
  unfold ensurePageExists
  rw [hpid, hsearch]
  cases h : ancestorsHave page.ancestors topPageId <;>
    simp [h, isErr, isWriteCall]

/-- A concrete environment for the C1 witness: the title search finds a
page whose only ancestor is `"999"`. -/
def c1Env : Env where
  md5 := fun s => s
  stringifyAdf := fun _ => ""
  captureMermaidCharts := fun _ => []
  getAttachments := fun _ => []
  createOrUpdateAttachments := fun _ _ _ _ => { fileId := "F", containerId := "C" }
  readBinary := fun _ _ => none
  getContentById := fun _ =>
    { id := "0", space := none, version := none, body := none, ancestors := none }
  getContent := fun _ _ =>
    [{ id := "77", space := none, version := some { number := 3 },
       body := some "BODY", ancestors := some [{ id := "999" }] }]
  createContent := fun _ _ _ =>
    { id := "new", space := none, version := none, body := none, ancestors := none }
  getLabelsForContent := fun _ => []
  urlPathname := fun _ => ""
  urlHash := fun _ => ""

/-- The searched-for page returned by `c1Env`. -/
def c1Page : ContentResponse :=
  { id := "77", space := none, version := some { number := 3 },
    body := some "BODY", ancestors := some [{ id := "999" }] }

/-- A document without a stored page id, for the C1 witness. -/
def c1File : AdfFile :=
  { folderName := "f", absoluteFilePath := "/vault/a.md", fileName := "a.md",
    contents := ADF.mk "doc" [] none none (some []), pageTitle := "A",
    frontmatter := [], tags := [], pageId := none,
    dontChangeParentPageId := false, spaceKey := none }

/-- C1 witness: the guard theorem at a concrete input whose matched page
has ancestor chain `["999"]` while the configured top page is `"1"`. -/
theorem ensurePageExists_subtree_guard_witness :
    (isErr (ensurePageExists c1Env c1File "SP" "par" "1").2 = true
        ↔ ancestorsHave c1Page.ancestors "1" = false) ∧
      (ancestorsHave c1Page.ancestors "1" = false →
        (ensurePageExists c1Env c1File "SP" "par" "1").1
            = [Call.getContent "SP" c1File.pageTitle] ∧
          ∀ c ∈ (ensurePageExists c1Env c1File "SP" "par" "1").1,
            isWriteCall c = false) :=
  ensurePageExists_subtree_guard c1Env c1File "SP" "par" "1" c1Page [] rfl rfl

/-! ## C6: per-page failure isolation and outcome accumulation -/

theorem collectStep_foldl (rs : List FilePublishResult) (acc : UploadResults) :
    rs.foldl collectStep acc =
      { successfulUploads :=
          acc.successfulUploads + (rs.filter (fun r => r.successfulUpload)).length,
        errorMessage := acc.errorMessage,
        failedFiles := acc.failedFiles ++
          (rs.filter (fun r => !r.successfulUpload)).map
            (fun r => { fileName := r.absoluteFilePath,
                        reason := r.reason.getD "No Reason Provided" }) } := by
  induction rs generalizing acc with
  | nil => simp
  | cons r rs ih =>
    simp only [List.foldl_cons, ih, List.filter_cons]
    cases hr : r.successfulUpload <;>
      simp [collectStep, hr, Nat.add_assoc, Nat.add_comm 1]

/-- The shape of the accumulated `UploadResults`. -/
theorem collectResults_spec (adrFiles : List FilePublishResult) :
    collectResults adrFiles =
      { successfulUploads := (adrFiles.filter (fun r => r.successfulUpload)).length,
        errorMessage := none,
        failedFiles := (adrFiles.filter (fun r => !r.successfulUpload)).map
          (fun r => { fileName := r.absoluteFilePath,
                      reason := r.reason.getD "No Reason Provided" }) } := by
  unfold collectResults
  rw [collectStep_foldl]
  simp

/-- C6: `publishFile` is a total function (it never throws); every
failure record carries the document's absolute path and the stringified
reason, and the outcome of a publish run counts each successful page and
lists each failed page independently of the other pages (the count and
the failure list are pointwise functions of the per-page results). -/
theorem publishFile_failure_isolation (stringifyObject : String → String)
    (upd : ConfluenceNode → Except String Unit) (nodes : List ConfluenceNode) :
    (collectResults (nodes.map (publishFile stringifyObject upd))).successfulUploads
        = ((nodes.map (publishFile stringifyObject upd)).filter
            (fun r => r.successfulUpload)).length ∧
      (collectResults (nodes.map (publishFile stringifyObject upd))).failedFiles
        = ((nodes.map (publishFile stringifyObject upd)).filter
            (fun r => !r.successfulUpload)).map
            (fun r => { fileName := r.absoluteFilePath,
                        reason := r.reason.getD "No Reason Provided" }) ∧
      (∀ node ∈ nodes, (publishFile stringifyObject upd node).absoluteFilePath
          = node.file.absoluteFilePath) ∧
      (∀ (node : ConfluenceNode) (e : String), node.file.pageId.isSome →
        upd node = .error e →
        publishFile stringifyObject upd node
          = { successfulUpload := false,
              absoluteFilePath := node.file.absoluteFilePath,
              reason := some (stringifyObject e) }) := by
  refine ⟨by rw [collectResults_spec], by rw [collectResults_spec], ?_, ?_⟩
  · intro node _
    unfold publishFile
    cases node.file.pageId <;> [skip; cases upd node] <;> rfl
  · intro node e hsome herr
    unfold publishFile
    cases hp : node.file.pageId with
    | none => rw [hp] at hsome; simp at hsome
    | some pid => rw [herr]

/-- A page-update outcome for the C6 witness: version-0 pages fail. -/
def c6Upd (node : ConfluenceNode) : Except String Unit :=
  if node.version = 0 then .error "boom" else .ok ()

/-- Two bindings — one that publishes, one that fails — for the C6
witness. -/
def c6Nodes : List ConfluenceNode :=
  [{ file := { c1File with pageId := some "10", absoluteFilePath := "/vault/good.md" },
     version := 4, existingAdf := "", parentPageId := "1" },
   { file := { c1File with pageId := some "11", absoluteFilePath := "/vault/bad.md" },
     version := 0, existingAdf := "", parentPageId := "1" }]

/-- C6 witness: the isolation theorem at a concrete run with one
succeeding and one failing page. -/
theorem publishFile_failure_isolation_witness :
    (collectResults (c6Nodes.map (publishFile (fun s => s) c6Upd))).successfulUploads
        = ((c6Nodes.map (publishFile (fun s => s) c6Upd)).filter
            (fun r => r.successfulUpload)).length ∧
      (collectResults (c6Nodes.map (publishFile (fun s => s) c6Upd))).failedFiles
        = ((c6Nodes.map (publishFile (fun s => s) c6Upd)).filter
            (fun r => !r.successfulUpload)).map
            (fun r => { fileName := r.absoluteFilePath,
                        reason := r.reason.getD "No Reason Provided" }) ∧
      (∀ node ∈ c6Nodes, (publishFile (fun s => s) c6Upd node).absoluteFilePath
          = node.file.absoluteFilePath) ∧
      (∀ (node : ConfluenceNode) (e : String), node.file.pageId.isSome →
        c6Upd node = .error e →
        publishFile (fun s => s) c6Upd node
          = { successfulUpload := false,
              absoluteFilePath := node.file.absoluteFilePath,
              reason := some e }) :=
  publishFile_failure_isolation (fun s => s) c6Upd c6Nodes


/-! ## C9: derived-filename uniqueness across the whole tree -/

theorem addFileToTreeAux_err_of_mem (convert : MarkdownFile → AdfFile)
    (file : MarkdownFile) (segs : List String) :
    ∀ (t : TreeNode) (names : List String), file.fileName ∈ names →
      isErr (addFileToTreeAux convert t file segs names) = true := by
  induction segs with
  | nil => intro t names _; rfl
  | cons seg rest ih =>
    intro t names hmem
    cases rest with
    | nil =>
      simp only [addFileToTreeAux]
      rw [if_pos hmem]
      rfl
    | cons r0 rs =>
      simp only [addFileToTreeAux]
      cases hfind : t.children.find? (fun node => node.name == seg) with
      | some childNode =>
        have hx := ih childNode names hmem
        cases hrec : addFileToTreeAux convert childNode file (r0 :: rs) names with
        | error e => simp [hrec, isErr]
        | ok pair => rw [hrec] at hx; exact absurd hx (by simp [isErr])
      | none =>
        have hx := ih (createTreeNode seg) names hmem
        cases hrec : addFileToTreeAux convert (createTreeNode seg) file (r0 :: rs) names with
        | error e => simp [hrec, isErr]
        | ok pair => rw [hrec] at hx; exact absurd hx (by simp [isErr])

theorem addFileToTreeAux_ok_names (convert : MarkdownFile → AdfFile)
    (file : MarkdownFile) (segs : List String) :
    ∀ (t : TreeNode) (names : List String) (t' : TreeNode) (names' : List String),
      addFileToTreeAux convert t file segs names = .ok (t', names') →
      names' = names ++ [file.fileName] := by
  induction segs with
  | nil => intro t names t' names' h; exact absurd h (by simp [addFileToTreeAux])
  | cons seg rest ih =>
    intro t names t' names' h
    cases rest with
    | nil =>
      simp only [addFileToTreeAux] at h
      by_cases hmem : file.fileName ∈ names
      · rw [if_pos hmem] at h; exact absurd h (by simp)
      · rw [if_neg hmem] at h
        injection h with hpair
        rw [Prod.mk.injEq] at hpair
        exact hpair.2.symm
    | cons r0 rs =>
      simp only [addFileToTreeAux] at h
      split at h
      · split at h
        · exact absurd h (by simp)
        · injection h with hpair
          rw [Prod.mk.injEq] at hpair
          rename_i hrec
          exact hpair.2.symm ▸ ih _ _ _ _ hrec
      · split at h
        · exact absurd h (by simp)
        · injection h with hpair
          rw [Prod.mk.injEq] at hpair
          rename_i hrec
          exact hpair.2.symm ▸ ih _ _ _ _ hrec

theorem addFileToTree_ok_names (convert : MarkdownFile → AdfFile) (t : TreeNode)
    (file : MarkdownFile) (relPath : String) (names : List String)
    (t' : TreeNode) (names' : List String)
    (h : addFileToTree convert t file relPath names = .ok (t', names')) :
    names' = names ++ [file.fileName] :=
  addFileToTreeAux_ok_names convert file (splitPath relPath) t names t' names' h

theorem insertAll_err_of_mem (convert : MarkdownFile → AdfFile) (commonPath : String)
    (g : MarkdownFile) (files : List MarkdownFile) (hg : g ∈ files) :
    ∀ (t : TreeNode) (names : List String), g.fileName ∈ names →
      isErr (insertAll convert commonPath files t names) = true := by
  induction files with
  | nil => exact absurd hg (List.not_mem_nil g)
  | cons f fs ih =>
    intro t names hmem
    simp only [insertAll]
    rcases List.mem_cons.mp hg with rfl | hg'
    · have herr := addFileToTreeAux_err_of_mem convert g
        (splitPath (relativePath commonPath g.absoluteFilePath)) t names hmem
      cases hstep : addFileToTree convert t g
          (relativePath commonPath g.absoluteFilePath) names with
      | error e => simp [hstep, isErr]
      | ok pair =>
        unfold addFileToTree at hstep
        rw [hstep] at herr
        exact absurd herr (by simp [isErr])
    · cases hstep : addFileToTree convert t f
          (relativePath commonPath f.absoluteFilePath) names with
      | error e => simp [hstep, isErr]
      | ok pair =>
        cases pair with
        | mk t1 ns1 =>
          have hns1 : ns1 = names ++ [f.fileName] :=
            addFileToTree_ok_names convert t f _ names t1 ns1 hstep
          have hmem1 : g.fileName ∈ ns1 := by
            rw [hns1]; exact List.mem_append_left _ hmem
          simpa [hstep] using ih hg' t1 ns1 hmem1

/-- C9: a list of source documents in which two documents (anywhere, in
any folders) share a derived filename makes `createFolderStructure` fail
with an error — the uniqueness set is shared across the whole tree, so a
collision anywhere fails the build — and no tree is ever produced. -/
theorem createFolderStructure_duplicate_error (convert : MarkdownFile → AdfFile)
    (fuel : Nat) (l₁ l₂ l₃ : List MarkdownFile) (f g : MarkdownFile)
    (hname : f.fileName = g.fileName) :
    isErr (createFolderStructure convert fuel (l₁ ++ f :: l₂ ++ g :: l₃)) = true := by
  have hins : ∀ (t : TreeNode) (names : List String) (cp : String),
      isErr (insertAll convert cp (l₁ ++ f :: l₂ ++ g :: l₃) t names) = true := by
    intro t names cp
    induction l₁ generalizing t names with
    | nil =>
      simp only [List.nil_append, insertAll]
      cases hstep : addFileToTree convert t f
          (relativePath cp f.absoluteFilePath) names with
      | error e => simp [hstep, isErr]
      | ok pair =>
        cases pair with
        | mk t1 ns1 =>
          have hns1 : ns1 = names ++ [f.fileName] :=
            addFileToTree_ok_names convert t f _ names t1 ns1 hstep
          have hmemg : g.fileName ∈ ns1 := by
            rw [hns1, ← hname]
            exact List.mem_append_right _ (List.mem_singleton.mpr rfl)
          simpa [hstep] using insertAll_err_of_mem convert cp g (l₂ ++ g :: l₃)
            (List.mem_append_right l₂ (List.mem_cons_self g l₃)) t1 ns1 hmemg
    | cons a as ih =>
      simp only [List.cons_append, insertAll]
      cases hstep : addFileToTree convert t a
          (relativePath cp a.absoluteFilePath) names with
      | error e => simp [hstep, isErr]
      | ok pair =>
        cases pair with
        | mk t1 ns1 => simpa [hstep] using ih t1 ns1
  cases hl : l₁ ++ f :: l₂ ++ g :: l₃ with
  | nil => exact absurd hl (by simp)
  | cons a as =>
    simp only [createFolderStructure]
    have hx := hins
      (createTreeNode (findCommonPath ((a :: as).map MarkdownFile.absoluteFilePath)))
      [] (findCommonPath ((a :: as).map MarkdownFile.absoluteFilePath))
    rw [hl] at hx
    cases hres : insertAll convert
        (findCommonPath ((a :: as).map MarkdownFile.absoluteFilePath)) (a :: as)
        (createTreeNode (findCommonPath ((a :: as).map MarkdownFile.absoluteFilePath))) [] with
    | error e => simp [hres, isErr]
    | ok pair => rw [hres] at hx; exact absurd hx (by simp [isErr])

/-- A converter stub for the C9 witness (the real converter is the
excluded markdown-to-ADF component). -/
def c9Convert (m : MarkdownFile) : AdfFile :=
  { c1File with fileName := m.fileName, absoluteFilePath := m.absoluteFilePath }

/-- C9 witness: two documents in different folders sharing the derived
filename `a.md` make the build fail. -/
theorem createFolderStructure_duplicate_error_witness :
    isErr (createFolderStructure c9Convert 5
      ([] ++ ({ absoluteFilePath := "/v/x/a.md", fileName := "a.md" } : MarkdownFile)
        :: [] ++ ({ absoluteFilePath := "/v/y/a.md", fileName := "a.md" } : MarkdownFile)
        :: [])) = true :=
  createFolderStructure_duplicate_error c9Convert 5 [] [] []
    { absoluteFilePath := "/v/x/a.md", fileName := "a.md" }
    { absoluteFilePath := "/v/y/a.md", fileName := "a.md" } rfl


/-! ## C2 and C8: the Page Content Synchronizer -/

theorem uploadFile_calls (env : Env) (pid path : String) (fn : Option String)
    (atts : List Attachment) :
    ((uploadFile env pid path fn atts).1.all isUploadPipelineCall) = true := by
  unfold uploadFile
  dsimp only
  split
  · split
    · split <;> rfl
    · rfl
  · rfl

theorem uploadBuffer_calls (env : Env) (pid name buf : String) (atts : List Attachment) :
    ((uploadBuffer env pid name buf atts).1.all isUploadPipelineCall) = true := by
  unfold uploadBuffer
  dsimp only
  split
  · split <;> rfl
  · rfl

theorem mediaUploadLoop_calls (env : Env) (pid path : String) (atts : List Attachment) :
    ∀ (urls : List (Option String)) (tr : List Call)
      (m : List (String × Option UploadedImageData)),
      tr.all isUploadPipelineCall = true →
      ((mediaUploadLoop env pid path atts urls tr m).1.all isUploadPipelineCall) = true := by
  intro urls
  induction urls with
  | nil => intro tr m htr; exact htr
  | cons u rest ih =>
    intro tr m htr
    cases u with
    | none => exact htr
    | some imageUrl =>
      refine ih _ _ ?_
      rw [List.all_append, htr, uploadFile_calls]
      rfl

theorem mermaidUploadLoop_calls (env : Env) (pid : String) (atts : List Attachment) :
    ∀ (images : List (String × String)) (tr : List Call)
      (m : List (String × Option UploadedImageData)),
      tr.all isUploadPipelineCall = true →
      ((mermaidUploadLoop env pid atts images tr m).1.all isUploadPipelineCall) = true := by
  intro images
  induction images with
  | nil => intro tr m htr; exact htr
  | cons img rest ih =>
    intro tr m htr
    cases img with
    | mk name buf =>
      refine ih _ _ ?_
      rw [List.all_append, htr, uploadBuffer_calls]
      rfl

theorem uploadFiles_calls (env : Env) (fuel : Nat) (pid path : String) (adr : ADF) :
    ((uploadFiles env fuel pid path adr).1.all isUploadPipelineCall) = true := by
  unfold uploadFiles
  have hloop := mediaUploadLoop_calls env pid path (env.getAttachments pid)
    (dedupFirst ((filterADF isMediaFileNode fuel adr).map (fun n => lookupAttr n.attrs "url")))
    [Call.renderMermaid ((filterADF isMermaidBlock fuel adr).map (chartDataOf env)),
     Call.getAttachments pid] [] rfl
  dsimp only
  split
  · rename_i tr e heq
    rw [heq] at hloop
    exact hloop
  · rename_i tr imageMap1 heq
    rw [heq] at hloop
    exact mermaidUploadLoop_calls env pid (env.getAttachments pid) _ tr imageMap1 hloop

theorem uploadFiles_calls_not_update (env : Env) (fuel : Nat) (pid path : String) (adr : ADF) :
    ∀ c ∈ (uploadFiles env fuel pid path adr).1,
      isUpdateCall c = false ∧ isLabelCall c = false := by
  intro c hc
  have h := List.all_eq_true.mp (uploadFiles_calls env fuel pid path adr) c hc
  cases c <;> simp_all [isUploadPipelineCall, isUpdateCall, isLabelCall]

/-- The arguments `publishFile` hands to `updatePageContent` for one
page binding. -/
structure PageTask where
  pageId : String
  originFileAbsoluteFilePath : String
  adf : ADF
  parentPageId : String
  pageVersionNumber : Nat
  pageTitle : String
  currentContents : String
  labels : List String
  adfFile : AdfFile

/-- `updatePageContent` applied to one `PageTask`. -/
def updatePageForTask (env : Env) (fuel : Nat) (t : PageTask) : List Call × Except String Bool :=
  updatePageContent env fuel t.pageId t.originFileAbsoluteFilePath t.adf t.parentPageId
    t.pageVersionNumber t.pageTitle t.currentContents t.labels t.adfFile

theorem updatePageContent_unchanged_single (env : Env) (fuel : Nat) (t : PageTask)
    (tr : List Call) (b : Option ADF)
    (hup : uploadFiles env fuel t.pageId t.originFileAbsoluteFilePath t.adf = (tr, .ok b))
    (hstr : env.stringifyAdf b = t.currentContents) :
    updatePageForTask env fuel t = (tr, .ok true) := by
  unfold updatePageForTask updatePageContent
  simp [hup, hstr]

/-- C2: for every list of page publish tasks in which each page's
serialized asset-resolved body equals the previously fetched remote body
string, the combined `updatePageContent` traces contain zero remote
update calls (hence zero version increments, which happen only through
such calls) and zero label fetch/add/remove calls — re-running a publish
with unchanged documents and unchanged remote state performs no body
update. -/
theorem updatePageContent_idempotent (env : Env) (fuel : Nat) (tasks : List PageTask)
    (h : ∀ t ∈ tasks, ∃ tr b,
      uploadFiles env fuel t.pageId t.originFileAbsoluteFilePath t.adf = (tr, .ok b) ∧
        env.stringifyAdf b = t.currentContents) :
    ((tasks.map (fun t => (updatePageForTask env fuel t).1)).flatten).countP isUpdateCall = 0 ∧
      ((tasks.map (fun t => (updatePageForTask env fuel t).1)).flatten).countP isLabelCall = 0 := by
  induction tasks with
  | nil => exact ⟨rfl, rfl⟩
  | cons t ts ih =>
    obtain ⟨tr, b, hup, hstr⟩ := h t (List.mem_cons_self t ts)
    have hsingle := updatePageContent_unchanged_single env fuel t tr b hup hstr
    have htr : (updatePageForTask env fuel t).1 = (uploadFiles env fuel t.pageId
        t.originFileAbsoluteFilePath t.adf).1 := by
      rw [hsingle, hup]
    obtain ⟨ih1, ih2⟩ := ih (fun t' ht' => h t' (List.mem_cons_of_mem t ht'))
    constructor <;>
      · simp only [List.map_cons, List.flatten_cons, List.countP_append, htr]
        rw [List.countP_eq_zero.mpr]
        · simp [ih1, ih2]
        · intro c hc
          have hx := uploadFiles_calls_not_update env fuel t.pageId
            t.originFileAbsoluteFilePath t.adf c hc
          simp_all

/-- A minimal document body (an empty `doc`) for concrete runs. -/
def c2Adf : ADF := ADF.mk "doc" [] none none (some [])

/-- Environment for the C2/C8 witnesses: serialization is constantly
`"BODY"`. -/
def c2Env : Env := { c1Env with stringifyAdf := fun _ => "BODY" }

/-- A page task whose stored remote body equals the serialized body. -/
def c2Task : PageTask :=
  { pageId := "1", originFileAbsoluteFilePath := "/v/a.md", adf := c2Adf,
    parentPageId := "0", pageVersionNumber := 7, pageTitle := "A",
    currentContents := "BODY", labels := [], adfFile := c1File }

/-- C2 witness: a one-page run with an unchanged body performs zero
update calls and zero label calls. -/
theorem updatePageContent_idempotent_witness :
    (([c2Task].map (fun t => (updatePageForTask c2Env 5 t).1)).flatten).countP isUpdateCall = 0 ∧
      (([c2Task].map (fun t => (updatePageForTask c2Env 5 t).1)).flatten).countP isLabelCall = 0 :=
  updatePageContent_idempotent c2Env 5 [c2Task] (by
    intro t ht
    rw [List.mem_singleton] at ht
    subst ht
    exact ⟨[Call.renderMermaid [], Call.getAttachments "1"], some c2Adf, rfl, rfl⟩)

/-- C8: when the serialized new body differs from the stored remote
body, `updatePageContent` issues exactly one `updateContent` call, whose
version is the old version plus one, whose title is the current document
title, whose body is the new serialized form, and whose ancestors field
is `[parentPageId]` unless `dontChangeParentPageId` is set, in which
case the field is omitted (`none`). -/
theorem updatePageContent_changed_update (env : Env) (fuel : Nat)
    (pageId origin : String) (adf : ADF) (parentPageId : String) (ver : Nat)
    (title current : String) (labels : List String) (adfFile : AdfFile)
    (tr : List Call) (b : Option ADF)
    (hup : uploadFiles env fuel pageId origin adf = (tr, .ok b))
    (hne : env.stringifyAdf b ≠ current) :
    (updatePageContent env fuel pageId origin adf parentPageId ver title current
        labels adfFile).1.countP isUpdateCall = 1 ∧
      (updatePageContent env fuel pageId origin adf parentPageId ver title current
          labels adfFile).1.filter isUpdateCall
        = [Call.updateContent
            { id := pageId,
              ancestors := if adfFile.dontChangeParentPageId then none else some [parentPageId],
              version := ver + 1, title := title,
              body := env.stringifyAdf b }] := by
  have htr : (uploadFiles env fuel pageId origin adf).1 = tr := by rw [hup]
  have hnup : ∀ c ∈ tr, ¬ (isUpdateCall c = true) := by
    intro c hc
    have hx := uploadFiles_calls_not_update env fuel pageId origin adf c (by rw [htr]; exact hc)
    simp_all
  have hcond : (current == env.stringifyAdf b) = false := by
    simp [Ne.symm hne]
  unfold updatePageContent
  rw [hup]
  dsimp only
  simp only [hcond, Bool.false_eq_true, if_false]
  constructor
  · simp only [List.countP_append]
    rw [List.countP_eq_zero.mpr hnup]
    have h1 : List.countP isUpdateCall
        [Call.updateContent
          { id := pageId,
            ancestors := if adfFile.dontChangeParentPageId then none else some [parentPageId],
            version := ver + 1, title := title, body := env.stringifyAdf b },
         Call.getLabels pageId] = 1 := rfl
    rw [h1]
    have h2 : List.countP isUpdateCall
        ((List.filter (fun existingLabel => !labels.contains existingLabel.label)
          (env.getLabelsForContent pageId)).map
          (fun existingLabel => Call.removeLabel pageId existingLabel.name)) = 0 := by
      rw [List.countP_eq_zero]
      intro c hc
      obtain ⟨l, _, rfl⟩ := List.mem_map.mp hc
      simp [isUpdateCall]
    rw [h2]
    split <;> rfl
  · simp only [List.filter_append]
    rw [List.filter_eq_nil_iff.mpr hnup]
    have h1 : List.filter isUpdateCall
        [Call.updateContent
          { id := pageId,
            ancestors := if adfFile.dontChangeParentPageId then none else some [parentPageId],
            version := ver + 1, title := title, body := env.stringifyAdf b },
         Call.getLabels pageId]
        = [Call.updateContent
            { id := pageId,
              ancestors := if adfFile.dontChangeParentPageId then none else some [parentPageId],
              version := ver + 1, title := title, body := env.stringifyAdf b }] := rfl
    rw [h1]
    have h2 : List.filter isUpdateCall
        ((List.filter (fun existingLabel => !labels.contains existingLabel.label)
          (env.getLabelsForContent pageId)).map
          (fun existingLabel => Call.removeLabel pageId existingLabel.name)) = [] := by
      rw [List.filter_eq_nil_iff]
      intro c hc
      obtain ⟨l, _, rfl⟩ := List.mem_map.mp hc
      simp [isUpdateCall]
    rw [h2]
    split <;> split <;> simp [isUpdateCall]

/-- A document flagged to preserve its remote ancestry, for the C8
witness. -/
def c8FileKeep : AdfFile := { c1File with dontChangeParentPageId := true }

/-- C8 witness: the versioned-update theorem applied at a concrete
changed page, once with ancestor reassignment and once with the
`dontChangeParentPageId` flag set (ancestors omitted). -/
theorem updatePageContent_changed_update_witness :
    ((updatePageContent c2Env 5 "1" "/v/a.md" c2Adf "0" 7 "A" "OLD" [] c1File).1.countP
        isUpdateCall = 1 ∧
      (updatePageContent c2Env 5 "1" "/v/a.md" c2Adf "0" 7 "A" "OLD" [] c1File).1.filter
          isUpdateCall
        = [Call.updateContent
            { id := "1",
              ancestors := if c1File.dontChangeParentPageId then none else some ["0"],
              version := 7 + 1, title := "A",
              body := c2Env.stringifyAdf (some c2Adf) }]) ∧
    ((updatePageContent c2Env 5 "1" "/v/a.md" c2Adf "0" 7 "A" "OLD" [] c8FileKeep).1.countP
        isUpdateCall = 1 ∧
      (updatePageContent c2Env 5 "1" "/v/a.md" c2Adf "0" 7 "A" "OLD" [] c8FileKeep).1.filter
          isUpdateCall
        = [Call.updateContent
            { id := "1",
              ancestors := if c8FileKeep.dontChangeParentPageId then none else some ["0"],
              version := 7 + 1, title := "A",
              body := c2Env.stringifyAdf (some c2Adf) }]) :=
  ⟨updatePageContent_changed_update c2Env 5 "1" "/v/a.md" c2Adf "0" 7 "A" "OLD" [] c1File
      [Call.renderMermaid [], Call.getAttachments "1"] (some c2Adf) rfl (by decide),
    updatePageContent_changed_update c2Env 5 "1" "/v/a.md" c2Adf "0" 7 "A" "OLD" [] c8FileKeep
      [Call.renderMermaid [], Call.getAttachments "1"] (some c2Adf) rfl (by decide)⟩

/-! ## C5: unresolved media references in the body rewrite -/

theorem filterMap_id_of {α : Type} (f : α → Option α) (l : List α)
    (h : ∀ c ∈ l, f c = some c) : l.filterMap f = l := by
  induction l with
  | nil => rfl
  | cons x xs ih =>
    rw [List.filterMap_cons, h x (List.mem_cons_self x xs)]
    rw [ih (fun c hc => h c (List.mem_cons_of_mem x hc))]

theorem ADF.setContent_self (adf : ADF) (l : List ADF) (h : adf.content = some l) :
    adf.setContent l = adf := by
  cases adf with
  | mk t a m x c =>
    simp only [ADF.content] at h
    simp [ADF.setContent, h]

/-- A visitor that keeps every node makes the traversal the identity, at
every fuel. -/
theorem traverseADF_keep_id (vis : ADF → VisitResult) (h : ∀ n, vis n = .keep) :
    ∀ (fuel : Nat) (adf : ADF), traverseADF vis fuel adf = some adf := by
  intro fuel
  induction fuel with
  | zero => intro adf; rfl
  | succ fuel ih =>
    intro adf
    simp only [traverseADF, h adf]
    cases hc : adf.content with
    | none => rfl
    | some l =>
      have hfm : l.filterMap (traverseADF vis fuel) = l :=
        filterMap_id_of _ l (fun c _ => ih c)
      dsimp only
      rw [hfm, ADF.setContent_self adf l hc]

theorem lookupImageMap_null (imageMap : List (String × Option UploadedImageData))
    (hm : ∀ p ∈ imageMap, p.2 = none) (k : String) :
    lookupImageMap imageMap k = none ∨ lookupImageMap imageMap k = some none := by
  unfold lookupImageMap
  cases hf : imageMap.reverse.find? (fun p => p.1 == k) with
  | none => left; rfl
  | some pr =>
    right
    have hmem := List.mem_of_find?_eq_some hf
    rw [List.mem_reverse] at hmem
    simp [hm pr hmem]

/-- When every image-map entry is `null` (or absent), the rewrite
visitor keeps every node unchanged. -/
theorem uploadRewriteVisitor_keep (env : Env)
    (imageMap : List (String × Option UploadedImageData))
    (hm : ∀ p ∈ imageMap, p.2 = none) (n : ADF) :
    uploadRewriteVisitor env imageMap n = .keep := by
  unfold uploadRewriteVisitor
  split
  · split
    · cases hurl : lookupAttr n.attrs "url" with
      | none => rfl
      | some url =>
        dsimp only
        rcases lookupImageMap_null imageMap hm url with hl | hl <;> rw [hl]
    · rfl
  · split
    · split
      · dsimp only
        split
        · rfl
        · rcases lookupImageMap_null imageMap hm
              (getMermaidFileName env (firstInnerText n.content)).uploadFilename with hl | hl <;>
            rw [hl]
      · rfl
    · rfl

theorem dedupFirstAux_subset {α : Type} [DecidableEq α] (seen : List α) (l : List α) :
    ∀ x ∈ dedupFirstAux seen l, x ∈ l := by
  induction l generalizing seen with
  | nil => intro x hx; exact absurd hx (List.not_mem_nil x)
  | cons y ys ih =>
    intro x hx
    simp only [dedupFirstAux] at hx
    by_cases hy : y ∈ seen
    · rw [if_pos hy] at hx
      exact List.mem_cons_of_mem y (ih seen x hx)
    · rw [if_neg hy] at hx
      rcases List.mem_cons.mp hx with rfl | hx'
      · exact List.mem_cons_self x ys
      · exact List.mem_cons_of_mem y (ih (y :: seen) x hx')

theorem uploadFile_unreadable (env : Env) (pid path : String) (fn : Option String)
    (atts : List Attachment) (hread : env.readBinary fn path = none) :
    uploadFile env pid path fn atts = ([Call.readBinary fn path], none) := by
  unfold uploadFile
  rw [hread]

theorem mediaUploadLoop_all_null (env : Env) (pid path : String) (atts : List Attachment)
    (hread : ∀ fn p, env.readBinary fn p = none) :
    ∀ (urls : List (Option String)) (tr : List Call)
      (m : List (String × Option UploadedImageData)),
      (∀ u ∈ urls, u ≠ none) → (∀ p ∈ m, p.2 = none) →
      ∃ tr' m', mediaUploadLoop env pid path atts urls tr m = (tr', .ok m') ∧
        ∀ p ∈ m', p.2 = none := by
  intro urls
  induction urls with
  | nil => intro tr m _ hm; exact ⟨tr, m, rfl, hm⟩
  | cons u rest ih =>
    intro tr m hall hm
    cases u with
    | none => exact absurd rfl (hall none (List.mem_cons_self none rest))
    | some imageUrl =>
      simp only [mediaUploadLoop]
      rw [uploadFile_unreadable env pid path (afterScheme imageUrl) atts
        (hread (afterScheme imageUrl) path)]
      refine ih _ _ (fun u hu => hall u (List.mem_cons_of_mem _ hu)) ?_
      intro p hp
      rcases List.mem_append.mp hp with hp' | hp'
      · exact hm p hp'
      · rw [List.mem_singleton] at hp'
        subst hp'
        rfl

/-- The `file` media nodes referencing one given external URL. -/
def mediaRefNode (url : String) (n : ADF) : Bool :=
  isMediaFileNode n && (lookupAttr n.attrs "url" == some url)

theorem lookupAttr_eraseAttr (l : List (String × String)) (k : String) :
    lookupAttr (eraseAttr l k) k = none := by
  unfold lookupAttr
  have hfind : (eraseAttr l k).find? (fun p => p.1 == k) = none := by
    rw [List.find?_eq_none]
    intro p hp
    have h2 := (List.mem_filter.mp hp).2
    simp_all [eraseAttr]
  rw [hfind]
  rfl

theorem mediaRefNode_setContent (url : String) (x : ADF) (l : List ADF) :
    mediaRefNode url (x.setContent l) = mediaRefNode url x := by
  cases x
  rfl

theorem ADF.content_setContent (x : ADF) (l : List ADF) :
    (x.setContent l).content = some l := by
  cases x
  rfl

theorem mem_filterADF_self (pred : ADF → Bool) (fuel : Nat) (n : ADF) (h : pred n = true) :
    n ∈ filterADF pred (fuel + 1) n := by
  simp [filterADF, h]

theorem mem_filterADF_child (pred : ADF → Bool) (fuel : Nat) (n c x : ADF)
    (hc : c ∈ n.content.getD []) (hx : x ∈ filterADF pred fuel c) :
    x ∈ filterADF pred (fuel + 1) n := by
  simp only [filterADF, List.mem_append, List.mem_flatten]
  right
  exact ⟨filterADF pred fuel c, List.mem_map_of_mem _ hc, hx⟩

/-- The synthetic media node the codeBlock rewrite inserts is kept
unchanged by any further traversal (it has no `url` attribute, so the
media visitor bails out on it). -/
theorem traverseADF_mediaChild (env : Env)
    (imageMap : List (String × Option UploadedImageData)) (c i : String) :
    ∀ f, traverseADF (uploadRewriteVisitor env imageMap) f
        (ADF.mk "media" [("type", "file"), ("collection", c), ("id", i)] none none none)
      = some (ADF.mk "media" [("type", "file"), ("collection", c), ("id", i)] none none none) := by
  intro f
  cases f with
  | zero => rfl
  | succ f => rfl

theorem filterADF_mediaChild (url c i : String) :
    ∀ f, filterADF (mediaRefNode url) f
      (ADF.mk "media" [("type", "file"), ("collection", c), ("id", i)] none none none) = [] := by
  intro f
  cases f with
  | zero => rfl
  | succ f => rfl

/-- Per-node, for an arbitrary (mixed) image map: a `file` media node
whose map entry is `null` or absent is kept unchanged by the rewrite
visitor, regardless of what resolves elsewhere on the page. -/
theorem uploadRewriteVisitor_unresolved_keep (env : Env)
    (imageMap : List (String × Option UploadedImageData)) (n : ADF) (u : String)
    (htype : n.type = "media") (hfile : lookupAttr n.attrs "type" = some "file")
    (hurl : lookupAttr n.attrs "url" = some u)
    (hu : lookupImageMap imageMap u = none ∨ lookupImageMap imageMap u = some none) :
    uploadRewriteVisitor env imageMap n = .keep := by
  unfold uploadRewriteVisitor
  rw [if_pos (by simp [htype]), if_pos (by simp [hfile]), hurl]
  dsimp only
  rcases hu with h | h <;> rw [h]

/-- The three possible actions of the upload rewrite visitor: keep the
node; rewrite a resolved `file` media node in place (same marks, text
and content, `url` replaced by collection and id); or turn a resolved
mermaid code block into a centered `mediaSingle`. -/
theorem uploadRewriteVisitor_shape (env : Env)
    (imageMap : List (String × Option UploadedImageData)) (n : ADF) :
    uploadRewriteVisitor env imageMap n = .keep ∨
    (∃ (u : String) (img : UploadedImageData),
      n.type = "media" ∧ lookupAttr n.attrs "url" = some u ∧
      lookupImageMap imageMap u = some (some img) ∧
      uploadRewriteVisitor env imageMap n = .replace (ADF.mk n.type
        (eraseAttr (setAttr (setAttr n.attrs "collection" img.collection) "id" img.id) "url")
        n.marks n.text n.content)) ∨
    (∃ (img : UploadedImageData), n.type = "codeBlock" ∧
      uploadRewriteVisitor env imageMap n = .replace (ADF.mk "mediaSingle"
        (eraseAttr (setAttr n.attrs "layout" "center") "language") n.marks n.text
        (match n.content with
         | none => none
         | some _ => some [ADF.mk "media"
             [("type", "file"), ("collection", img.collection), ("id", img.id)]
             none none none]))) := by
  unfold uploadRewriteVisitor
  split
  · rename_i hmedia
    split
    · cases hurl : lookupAttr n.attrs "url" with
      | none => left; rfl
      | some u =>
        dsimp only
        cases himg : lookupImageMap imageMap u with
        | none => left; rfl
        | some v =>
          cases v with
          | none => left; rfl
          | some img =>
            right; left
            exact ⟨u, img, by simpa using hmedia, rfl, himg, rfl⟩
    · left; rfl
  · split
    · rename_i hnm hcb
      split
      · dsimp only
        split
        · left; rfl
        · cases himg : lookupImageMap imageMap
              (getMermaidFileName env (firstInnerText n.content)).uploadFilename with
          | none => left; rfl
          | some v =>
            cases v with
            | none => left; rfl
            | some img =>
              right; right
              exact ⟨img, by simpa using hcb, rfl⟩
      · left; rfl
    · left; rfl

theorem ADF.type_mk (t : String) (a : List (String × String)) (m : Option (List Mark))
    (x : Option String) (c : Option (List ADF)) : (ADF.mk t a m x c).type = t := rfl

theorem ADF.attrs_mk (t : String) (a : List (String × String)) (m : Option (List Mark))
    (x : Option String) (c : Option (List ADF)) : (ADF.mk t a m x c).attrs = a := rfl

theorem ADF.content_mk (t : String) (a : List (String × String)) (m : Option (List Mark))
    (x : Option String) (c : Option (List ADF)) : (ADF.mk t a m x c).content = c := rfl

theorem filterADF_succ (pred : ADF → Bool) (fuel : Nat) (n : ADF) :
    filterADF pred (fuel + 1) n =
      (if pred n then [n] else [])
        ++ ((n.content.getD []).map (filterADF pred fuel)).flatten := rfl

/-- Core preservation result: under an arbitrary (mixed) image map whose
entry for `url` is `null` or absent, the body rewrite keeps every media
node referencing `url` exactly where and as it was: the traversal
succeeds and the pre-order list of such nodes in the result equals that
of the input, whatever else gets rewritten around them. The two side
conditions say that such media nodes are leaves and that none of them
sits inside a code block's content (which a resolved mermaid rewrite
would discard wholesale — as the JS also would). -/
theorem traverseADF_preserves_unresolved (env : Env)
    (imageMap : List (String × Option UploadedImageData)) (url : String)
    (hmap : lookupImageMap imageMap url = none ∨ lookupImageMap imageMap url = some none) :
    ∀ (fuel : Nat) (n : ADF),
      (∀ m ∈ filterADF (mediaRefNode url) fuel n, m.content = none ∨ m.content = some []) →
      (∀ b ∈ filterADF (fun x => x.type == "codeBlock") fuel n, ∀ fx,
        ((b.content.getD []).map (filterADF (mediaRefNode url) fx)).flatten = []) →
      ∃ r, traverseADF (uploadRewriteVisitor env imageMap) fuel n = some r ∧
        filterADF (mediaRefNode url) fuel r = filterADF (mediaRefNode url) fuel n := by
  intro fuel
  induction fuel with
  | zero => intro n _ _; exact ⟨n, rfl, rfl⟩
  | succ fuel ih =>
    intro n hleaf hhz
    have hchildhyp : ∀ c ∈ n.content.getD [],
        (∀ m ∈ filterADF (mediaRefNode url) fuel c,
          m.content = none ∨ m.content = some []) ∧
        (∀ b ∈ filterADF (fun x => x.type == "codeBlock") fuel c, ∀ fx,
          ((b.content.getD []).map (filterADF (mediaRefNode url) fx)).flatten = []) := by
      intro c hc
      exact ⟨fun m hm => hleaf m (mem_filterADF_child _ fuel n c m hc hm),
             fun b hb fx => hhz b (mem_filterADF_child _ fuel n c b hc hb) fx⟩
    have hchildren : ∀ l : List ADF,
        (∀ c ∈ l,
          (∀ m ∈ filterADF (mediaRefNode url) fuel c,
            m.content = none ∨ m.content = some []) ∧
          (∀ b ∈ filterADF (fun x => x.type == "codeBlock") fuel c, ∀ fx,
            ((b.content.getD []).map (filterADF (mediaRefNode url) fx)).flatten = [])) →
        ∃ lr, l.filterMap (traverseADF (uploadRewriteVisitor env imageMap) fuel) = lr ∧
          (lr.map (filterADF (mediaRefNode url) fuel)).flatten
            = (l.map (filterADF (mediaRefNode url) fuel)).flatten := by
      intro l
      induction l with
      | nil => intro _; exact ⟨[], rfl, rfl⟩
      | cons c cs ihc =>
        intro hl
        obtain ⟨rc, hrc, hfc⟩ := ih c (hl c (List.mem_cons_self c cs)).1
          (hl c (List.mem_cons_self c cs)).2
        obtain ⟨lr, hlr, hflr⟩ := ihc (fun c' hc' => hl c' (List.mem_cons_of_mem c hc'))
        refine ⟨rc :: lr, ?_, ?_⟩
        · rw [List.filterMap_cons, hrc, hlr]
        · simp [hfc, hflr]
    rcases uploadRewriteVisitor_shape env imageMap n with hk
      | ⟨u, img, hmedia, hu, himg, hrep⟩ | ⟨img, hcb, hrep⟩
    · -- the visitor keeps n
      by_cases hP : mediaRefNode url n = true
      · have hself := hleaf n (mem_filterADF_self _ fuel n hP)
        rcases hself with hnone | hemp
        · refine ⟨n, ?_, rfl⟩
          simp [traverseADF, hk, hnone]
        · refine ⟨n, ?_, rfl⟩
          simp [traverseADF, hk, hemp, ADF.setContent_self n [] hemp]
      · have hPf : mediaRefNode url n = false := by
          cases h : mediaRefNode url n
          · rfl
          · exact absurd h hP
        cases hc : n.content with
        | none => exact ⟨n, by simp [traverseADF, hk, hc], rfl⟩
        | some l =>
          obtain ⟨lr, hlr, hflr⟩ := hchildren l
            (fun c hc' => hchildhyp c (by rw [hc]; simpa using hc'))
          refine ⟨n.setContent lr, ?_, ?_⟩
          · simp [traverseADF, hk, hc, hlr]
          · rw [filterADF_succ, filterADF_succ, mediaRefNode_setContent, hPf,
              ADF.content_setContent, hc]
            simp [hflr]
    · -- a resolved media node: rewritten in place, content untouched
      have hne : u ≠ url := by
        intro he
        subst he
        rcases hmap with h | h <;> rw [himg] at h <;> simp at h
      have hbne : (some u == some url) = false := by
        rw [beq_eq_false_iff_ne]
        simp [hne]
      have hPn : mediaRefNode url n = false := by
        unfold mediaRefNode
        rw [hu, hbne, Bool.and_false]
      have hPo : ∀ co : Option (List ADF), mediaRefNode url (ADF.mk n.type
          (eraseAttr (setAttr (setAttr n.attrs "collection" img.collection) "id" img.id) "url")
          n.marks n.text co) = false := by
        intro co
        unfold mediaRefNode
        rw [ADF.attrs_mk, lookupAttr_eraseAttr,
          show ((none : Option String) == some url) = false from rfl, Bool.and_false]
      cases hc : n.content with
      | none =>
        rw [hc] at hrep
        refine ⟨ADF.mk n.type
          (eraseAttr (setAttr (setAttr n.attrs "collection" img.collection) "id" img.id) "url")
          n.marks n.text none, ?_, ?_⟩
        · simp [traverseADF, hrep, ADF.content_mk]
        · rw [filterADF_succ, filterADF_succ, hPo none, hPn, ADF.content_mk, hc]
          simp
      | some l =>
        rw [hc] at hrep
        obtain ⟨lr, hlr, hflr⟩ := hchildren l
          (fun c hc' => hchildhyp c (by rw [hc]; simpa using hc'))
        refine ⟨ADF.mk n.type
          (eraseAttr (setAttr (setAttr n.attrs "collection" img.collection) "id" img.id) "url")
          n.marks n.text (some lr), ?_, ?_⟩
        · simp [traverseADF, hrep, ADF.content_mk, ADF.setContent, hlr]
        · rw [filterADF_succ, filterADF_succ, hPo (some lr), hPn, ADF.content_mk, hc]
          simp [hflr]
    · -- a resolved mermaid code block: replaced by a mediaSingle
      have hPn : mediaRefNode url n = false := by
        unfold mediaRefNode isMediaFileNode
        rw [hcb, show (("codeBlock" == "media") : Bool) = false from rfl,
          Bool.false_and, Bool.false_and]
      have hcbmem : n ∈ filterADF (fun x => x.type == "codeBlock") (fuel + 1) n :=
        mem_filterADF_self _ fuel n (by simp [hcb])
      have hz := hhz n hcbmem fuel
      cases hc : n.content with
      | none =>
        rw [hc] at hrep
        refine ⟨ADF.mk "mediaSingle" (eraseAttr (setAttr n.attrs "layout" "center") "language")
          n.marks n.text none, ?_, ?_⟩
        · simp [traverseADF, hrep, ADF.content_mk]
        · rw [filterADF_succ, filterADF_succ,
            show mediaRefNode url (ADF.mk "mediaSingle"
              (eraseAttr (setAttr n.attrs "layout" "center") "language")
              n.marks n.text none) = false from rfl, hPn, ADF.content_mk, hc]
          simp
      | some l =>
        rw [hc] at hrep
        rw [hc] at hz
        refine ⟨ADF.mk "mediaSingle" (eraseAttr (setAttr n.attrs "layout" "center") "language")
          n.marks n.text (some [ADF.mk "media"
            [("type", "file"), ("collection", img.collection), ("id", img.id)]
            none none none]), ?_, ?_⟩
        · simp [traverseADF, hrep, ADF.content_mk, ADF.setContent, traverseADF_mediaChild]
        · rw [filterADF_succ, filterADF_succ,
            show mediaRefNode url (ADF.mk "mediaSingle"
              (eraseAttr (setAttr n.attrs "layout" "center") "language")
              n.marks n.text (some [ADF.mk "media"
                [("type", "file"), ("collection", img.collection), ("id", img.id)]
                none none none])) = false from rfl, hPn, ADF.content_mk, hc]
          simp [filterADF_mediaChild]
          simpa using hz

theorem lookupImageMap_key_null (m : List (String × Option UploadedImageData)) (url : String)
    (hm : ∀ p ∈ m, p.1 = url → p.2 = none) :
    lookupImageMap m url = none ∨ lookupImageMap m url = some none := by
  unfold lookupImageMap
  cases hf : m.reverse.find? (fun p => p.1 == url) with
  | none => left; rfl
  | some pr =>
    right
    have hmem := List.mem_of_find?_eq_some hf
    rw [List.mem_reverse] at hmem
    have hkey := List.find?_some hf
    simp [hm pr hmem (by simpa using hkey)]

theorem mediaUploadLoop_ok (env : Env) (pid path : String) (atts : List Attachment) :
    ∀ (urls : List (Option String)) (tr : List Call)
      (m : List (String × Option UploadedImageData)),
      (∀ u ∈ urls, u ≠ none) →
      ∃ tr' m', mediaUploadLoop env pid path atts urls tr m = (tr', .ok m') := by
  intro urls
  induction urls with
  | nil => intro tr m _; exact ⟨tr, m, rfl⟩
  | cons u rest ih =>
    intro tr m hall
    cases u with
    | none => exact absurd rfl (hall none (List.mem_cons_self none rest))
    | some imageUrl =>
      simp only [mediaUploadLoop]
      exact ih _ _ (fun u hu => hall u (List.mem_cons_of_mem _ hu))

/-- The media upload loop's image map maps the URL of an unreadable
binary to an explicit `null` entry (if to anything at all): every pair
keyed by that URL carries `none`. -/
theorem mediaUploadLoop_url_null (env : Env) (pid path : String) (atts : List Attachment)
    (url : String) (hread : env.readBinary (afterScheme url) path = none) :
    ∀ (urls : List (Option String)) (tr : List Call)
      (m : List (String × Option UploadedImageData)) (tr' : List Call)
      (m' : List (String × Option UploadedImageData)),
      mediaUploadLoop env pid path atts urls tr m = (tr', .ok m') →
      (∀ p ∈ m, p.1 = url → p.2 = none) →
      ∀ p ∈ m', p.1 = url → p.2 = none := by
  intro urls
  induction urls with
  | nil =>
    intro tr m tr' m' heq hm
    simp only [mediaUploadLoop] at heq
    injection heq with htr hok
    injection hok with hmm
    subst hmm
    exact hm
  | cons u rest ih =>
    intro tr m tr' m' heq hm
    cases u with
    | none =>
      simp only [mediaUploadLoop] at heq
      injection heq with _ hok
      exact absurd hok (by simp)
    | some imageUrl =>
      simp only [mediaUploadLoop] at heq
      refine ih _ _ _ _ heq ?_
      intro p hp hkey
      rcases List.mem_append.mp hp with hp' | hp'
      · exact hm p hp' hkey
      · rw [List.mem_singleton] at hp'
        subst hp'
        simp only at hkey
        subst hkey
        show (uploadFile env pid path (afterScheme imageUrl) atts).2 = none
        rw [uploadFile_unreadable env pid path (afterScheme imageUrl) atts hread]

/-- The mermaid upload loop only adds entries keyed by rendered chart
filenames, so it preserves the null-entry invariant for any other URL. -/
theorem mermaidUploadLoop_url_null (env : Env) (pid : String) (atts : List Attachment)
    (url : String) :
    ∀ (images : List (String × String)) (tr : List Call)
      (m : List (String × Option UploadedImageData)),
      (∀ p ∈ m, p.1 = url → p.2 = none) →
      (∀ pr ∈ images, pr.1 ≠ url) →
      ∀ p ∈ (mermaidUploadLoop env pid atts images tr m).2, p.1 = url → p.2 = none := by
  intro images
  induction images with
  | nil => intro tr m hm _; exact hm
  | cons img rest ih =>
    intro tr m hm himg
    cases img with
    | mk name buf =>
      refine ih _ _ ?_ (fun pr hpr => himg pr (List.mem_cons_of_mem _ hpr))
      intro p hp hkey
      rcases List.mem_append.mp hp with hp' | hp'
      · exact hm p hp' hkey
      · rw [List.mem_singleton] at hp'
        subst hp'
        simp only at hkey
        exact absurd hkey (by simpa using himg (name, buf) (List.mem_cons_self _ _))

/-- C5 (amended): every `file` media node whose external reference could
not be resolved — its URL's binary is unreadable, so its image-map entry
is `null` — is left UNCHANGED in the resulting body (kept in place with
its external `url` attribute, not removed), even when other media and
diagram nodes of the same page resolve and are rewritten around it; and
the page still publishes without error. The conclusion lists the
media nodes referencing that URL in the output: they are exactly the
input's, node for node. The last two hypotheses state that such media
nodes are leaves and do not sit inside code-block content (where a
resolved mermaid rewrite discards the content wholesale), as in any
well-formed ADF document. -/
theorem uploadFiles_unresolved_kept (env : Env) (fuel : Nat) (pid path : String)
    (adf : ADF) (url : String)
    (hurls : ∀ n ∈ filterADF isMediaFileNode fuel adf, lookupAttr n.attrs "url" ≠ none)
    (hread : env.readBinary (afterScheme url) path = none)
    (hcharts : ∀ pr ∈ env.captureMermaidCharts
      ((filterADF isMermaidBlock fuel adf).map (chartDataOf env)), pr.1 ≠ url)
    (hleaf : ∀ m ∈ filterADF (mediaRefNode url) fuel adf,
      m.content = none ∨ m.content = some [])
    (hhz : ∀ b ∈ filterADF (fun x => x.type == "codeBlock") fuel adf, ∀ fx,
      ((b.content.getD []).map (filterADF (mediaRefNode url) fx)).flatten = []) :
    ∃ result, (uploadFiles env fuel pid path adf).2 = .ok (some result) ∧
      filterADF (mediaRefNode url) fuel result = filterADF (mediaRefNode url) fuel adf := by
  have hall : ∀ u ∈ dedupFirst
      ((filterADF isMediaFileNode fuel adf).map (fun n => lookupAttr n.attrs "url")),
      u ≠ none := by
    intro u hu
    have hu' := dedupFirstAux_subset [] _ u hu
    obtain ⟨n, hn, rfl⟩ := List.mem_map.mp hu'
    exact hurls n hn
  obtain ⟨tr1, m1, hloop⟩ := mediaUploadLoop_ok env pid path (env.getAttachments pid)
    (dedupFirst ((filterADF isMediaFileNode fuel adf).map (fun n => lookupAttr n.attrs "url")))
    [Call.renderMermaid ((filterADF isMermaidBlock fuel adf).map (chartDataOf env)),
     Call.getAttachments pid] [] hall
  have hm1 : ∀ p ∈ m1, p.1 = url → p.2 = none :=
    mediaUploadLoop_url_null env pid path (env.getAttachments pid) url hread _ _ _ _ _ hloop
      (fun p hp => absurd hp (List.not_mem_nil p))
  have hm2 : ∀ p ∈ (mermaidUploadLoop env pid (env.getAttachments pid)
      (env.captureMermaidCharts ((filterADF isMermaidBlock fuel adf).map (chartDataOf env)))
      tr1 m1).2, p.1 = url → p.2 = none :=
    mermaidUploadLoop_url_null env pid (env.getAttachments pid) url _ tr1 m1 hm1 hcharts
  obtain ⟨r, htrav, hfilt⟩ := traverseADF_preserves_unresolved env
    (mermaidUploadLoop env pid (env.getAttachments pid)
      (env.captureMermaidCharts ((filterADF isMermaidBlock fuel adf).map (chartDataOf env)))
      tr1 m1).2 url
    (lookupImageMap_key_null _ url hm2) fuel adf hleaf hhz
  refine ⟨r, ?_, hfilt⟩
  unfold uploadFiles
  dsimp only
  rw [hloop]
  dsimp only
  rw [htrav]

/-- A page body holding one external `file` media reference. -/
def c5Adf : ADF :=
  ADF.mk "doc" [] none none
    (some [ADF.mk "media" [("type", "file"), ("url", "file://x.png")] none none none])

/-- C5 counterexample: with the referenced binary unreadable (the image
map entry is `null`), the claim says the media node is removed from the
resulting body; the code instead returns the body unchanged — the
rewritten body is exactly the input, and it still contains one `file`
media node, not zero. (`traverse` removes a node only when a visitor
returns `false`; this visitor returns `undefined`, which keeps it.) -/
theorem uploadFiles_unresolved_counterexample :
    (uploadFiles c1Env 5 "1" "/v/a.md" c5Adf).2 = .ok (some c5Adf) ∧
      (filterADF isMediaFileNode 5 c5Adf).length = 1 ∧
      ¬ (filterADF isMediaFileNode 5 c5Adf).length = 0 := by
  refine ⟨rfl, rfl, by decide⟩

/-- The binary the C5 witness adaptor can read. -/
def c5OkBinary : BinaryFile :=
  { contents := "DATA", filePath := "/v/ok.png", filename := "ok.png" }

/-- Environment for the C5 witness: the adaptor can read `ok.png` but
not `bad.png`. -/
def c5MixEnv : Env :=
  { c1Env with readBinary := fun fn _ =>
      if fn == some "ok.png" then some c5OkBinary else none }

/-- A media node whose binary resolves. -/
def c5GoodNode : ADF :=
  ADF.mk "media" [("type", "file"), ("url", "file://ok.png")] none none none

/-- A media node whose binary is unreadable. -/
def c5BadNode : ADF :=
  ADF.mk "media" [("type", "file"), ("url", "file://bad.png")] none none none

/-- A page with one resolvable and one unresolvable media reference. -/
def c5MixAdf : ADF := ADF.mk "doc" [] none none (some [c5GoodNode, c5BadNode])

/-- What the resolvable node is rewritten to (collection and id from the
upload, external `url` dropped). -/
def c5GoodRewritten : ADF :=
  ADF.mk "media" [("type", "file"), ("collection", "contentId-C"), ("id", "F")] none none none

/-- C5 witness: the amended theorem applied at a genuinely mixed page —
the readable asset is uploaded and its node rewritten, while the
unreadable one is kept unchanged in place; the extra conjuncts evaluate
the run concretely to exhibit exactly that body. -/
theorem uploadFiles_unresolved_kept_witness :
    (∃ result, (uploadFiles c5MixEnv 5 "1" "/v/a.md" c5MixAdf).2 = .ok (some result) ∧
      filterADF (mediaRefNode "file://bad.png") 5 result
        = filterADF (mediaRefNode "file://bad.png") 5 c5MixAdf) ∧
    (uploadFiles c5MixEnv 5 "1" "/v/a.md" c5MixAdf).2
      = .ok (some (ADF.mk "doc" [] none none (some [c5GoodRewritten, c5BadNode]))) ∧
    filterADF (mediaRefNode "file://bad.png") 5
        (ADF.mk "doc" [] none none (some [c5GoodRewritten, c5BadNode]))
      = [c5BadNode] :=
  ⟨uploadFiles_unresolved_kept c5MixEnv 5 "1" "/v/a.md" c5MixAdf "file://bad.png"
    (by
      intro n hn
      rw [show filterADF isMediaFileNode 5 c5MixAdf = [c5GoodNode, c5BadNode] from rfl] at hn
      rcases List.mem_cons.mp hn with rfl | hn'
      · decide
      · rw [List.mem_singleton] at hn'
        subst hn'
        decide)
    rfl
    (by intro pr hpr; exact absurd hpr (List.not_mem_nil pr))
    (by
      intro m hm
      rw [show filterADF (mediaRefNode "file://bad.png") 5 c5MixAdf = [c5BadNode] from rfl,
        List.mem_singleton] at hm
      subst hm
      exact Or.inl rfl)
    (by
      intro b hb
      rw [show filterADF (fun x => x.type == "codeBlock") 5 c5MixAdf = [] from rfl] at hb
      exact absurd hb (List.not_mem_nil b)),
   rfl, rfl⟩

/-! ## C10 and C4: mermaid handling in the upload pipeline -/

/-- An environment whose renderer returns one image (bytes `"IMG"`) per
requested chart, faithful to the mermaid renderer contract. -/
def renderAllEnv : Env :=
  { c1Env with captureMermaidCharts := fun l => l.map (fun c => (c.name, "IMG")) }

/-- A mermaid code block whose first content node is absent (no text). -/
def c10Adf : ADF :=
  ADF.mk "doc" [] none none
    (some [ADF.mk "codeBlock" [("language", "mermaid")] none none (some [])])

/-- C10: for a mermaid code block with no first-content text, the
pipeline derives the upload filename from the fixed placeholder source
`flowchart LR\nid1[Missing Chart]`, asks the renderer for exactly that
placeholder chart and uploads the rendered image under the derived
filename — yet the body rewrite leaves the empty code block unchanged
(the whole body comes back identical), because the rewrite visitor
bails out on a falsy first text before consulting the image map. -/
theorem mermaid_empty_placeholder (env : Env)
    (hrender : ∀ l, env.captureMermaidCharts l = l.map (fun c => (c.name, "IMG")))
    (hatt : env.getAttachments "1" = []) :
    getMermaidFileName env none =
      { uploadFilename :=
          "RenderedMermaidChart-" ++ env.md5 "flowchart LR\nid1[Missing Chart]" ++ ".png",
        mermaidText := "flowchart LR\nid1[Missing Chart]" } ∧
      (uploadFiles env 10 "1" "/v/a.md" c10Adf).1 =
        [Call.renderMermaid
          [{ name := "RenderedMermaidChart-" ++ env.md5 "flowchart LR\nid1[Missing Chart]"
               ++ ".png",
             data := "flowchart LR\nid1[Missing Chart]" }],
         Call.getAttachments "1",
         Call.createOrUpdateAttachments "1"
           ("RenderedMermaidChart-" ++ env.md5 "flowchart LR\nid1[Missing Chart]" ++ ".png")
           "IMG" (env.md5 "IMG")] ∧
      (uploadFiles env 10 "1" "/v/a.md" c10Adf).2 = .ok (some c10Adf) := by
  have hload : uploadFiles env 10 "1" "/v/a.md" c10Adf =
      ([Call.renderMermaid
          [{ name := "RenderedMermaidChart-" ++ env.md5 "flowchart LR\nid1[Missing Chart]"
               ++ ".png",
             data := "flowchart LR\nid1[Missing Chart]" }],
        Call.getAttachments "1",
        Call.createOrUpdateAttachments "1"
          ("RenderedMermaidChart-" ++ env.md5 "flowchart LR\nid1[Missing Chart]" ++ ".png")
          "IMG" (env.md5 "IMG")],
       .ok (some c10Adf)) := by
    unfold uploadFiles
    dsimp only
    rw [hrender, hatt]
    rfl
  exact ⟨rfl, by rw [hload], by rw [hload]⟩

/-- C10 witness: the placeholder theorem at the concrete all-rendering
environment. -/
theorem mermaid_empty_placeholder_witness :
    getMermaidFileName renderAllEnv none =
      { uploadFilename :=
          "RenderedMermaidChart-" ++ renderAllEnv.md5 "flowchart LR\nid1[Missing Chart]"
            ++ ".png",
        mermaidText := "flowchart LR\nid1[Missing Chart]" } ∧
      (uploadFiles renderAllEnv 10 "1" "/v/a.md" c10Adf).1 =
        [Call.renderMermaid
          [{ name := "RenderedMermaidChart-"
               ++ renderAllEnv.md5 "flowchart LR\nid1[Missing Chart]" ++ ".png",
             data := "flowchart LR\nid1[Missing Chart]" }],
         Call.getAttachments "1",
         Call.createOrUpdateAttachments "1"
           ("RenderedMermaidChart-" ++ renderAllEnv.md5 "flowchart LR\nid1[Missing Chart]"
             ++ ".png")
           "IMG" (renderAllEnv.md5 "IMG")] ∧
      (uploadFiles renderAllEnv 10 "1" "/v/a.md" c10Adf).2 = .ok (some c10Adf) :=
  mermaid_empty_placeholder renderAllEnv (fun _ => rfl) rfl

/-- One mermaid code block with source text `graph TD`. -/
def c4Block : ADF :=
  ADF.mk "codeBlock" [("language", "mermaid")] none none
    (some [ADF.mk "text" [] none (some "graph TD") none])

/-- A document with two byte-identical mermaid blocks. -/
def c4Adf : ADF := ADF.mk "doc" [] none none (some [c4Block, c4Block])

/-- The media block both mermaid blocks are rewritten to. -/
def c4MediaSingle : ADF :=
  ADF.mk "mediaSingle" [("layout", "center")] none none
    (some [ADF.mk "media"
      [("type", "file"), ("collection", "contentId-C"), ("id", "F")] none none none])

/-- C4 evaluation at the failing input: a document with two mermaid
blocks of byte-identical source `graph TD` produces a renderer
invocation with TWO (identical) chart entries and TWO attachment upload
calls — not one of each as the claim states — because the JS
`new Set(...)` is built from freshly mapped objects and object identity
makes it deduplicate nothing. Both blocks are still rewritten to the
same uploaded image. -/
theorem uploadFiles_duplicate_mermaid_eval :
    ((filterADF isMermaidBlock 10 c4Adf).map (chartDataOf renderAllEnv))
        = [{ name := "RenderedMermaidChart-graph TD.png", data := "graph TD" },
           { name := "RenderedMermaidChart-graph TD.png", data := "graph TD" }] ∧
      (uploadFiles renderAllEnv 10 "1" "/v/a.md" c4Adf).1
        = [Call.renderMermaid
            [{ name := "RenderedMermaidChart-graph TD.png", data := "graph TD" },
             { name := "RenderedMermaidChart-graph TD.png", data := "graph TD" }],
           Call.getAttachments "1",
           Call.createOrUpdateAttachments "1" "RenderedMermaidChart-graph TD.png" "IMG" "IMG",
           Call.createOrUpdateAttachments "1" "RenderedMermaidChart-graph TD.png" "IMG" "IMG"] ∧
      (uploadFiles renderAllEnv 10 "1" "/v/a.md" c4Adf).2
        = .ok (some (ADF.mk "doc" [] none none (some [c4MediaSingle, c4MediaSingle]))) ∧
      ¬ ((uploadFiles renderAllEnv 10 "1" "/v/a.md" c4Adf).1.countP
          (fun c => match c with
            | Call.createOrUpdateAttachments _ _ _ _ => true
            | _ => false) = 1) :=
  ⟨rfl, rfl, rfl, by decide⟩

/-! ## C7: wikilink rewriting -/

/-- C7: for a text node whose first mark is a `link` annotation with a
wikilink href — when the derived filename (pathname plus `.md`) is in
the corpus map, the link target becomes the absolute URL composed of the
configured base URL, the resolved document's space key, page identifier
and the original fragment; the whole node becomes an `inlineCard` node
exactly when the visible text equals the logical path. When the filename
is absent from the map, the first mark (the link annotation) is removed,
leaving the plain text. -/
theorem linkRewriteVisitor_spec (env : Env) (confluenceBaseUrl : String)
    (fileMap : String → Option AdfFile) (n : ADF)
    (mark0 : Mark) (restMarks : List Mark) (markAttrs : List (String × String)) (href : String)
    (htype : n.type = "text")
    (hmarks : n.marks = some (mark0 :: restMarks))
    (hlink : mark0.type = "link")
    (hattrs : mark0.attrs = some markAttrs)
    (hhref : lookupAttr markAttrs "href" = some href)
    (hwiki : strStartsWith href "wikilink" = true) :
    (∀ linkPage, fileMap (env.urlPathname href ++ ".md") = some linkPage →
      (n.text = some (env.urlPathname href) →
        linkRewriteVisitor env confluenceBaseUrl fileMap n =
          .replace (ADF.mk "inlineCard"
            [("url", confluenceBaseUrl ++ "/wiki/spaces/" ++ showOpt linkPage.spaceKey
              ++ "/pages/" ++ showOpt linkPage.pageId ++ env.urlHash href)]
            none none n.content)) ∧
      (n.text ≠ some (env.urlPathname href) →
        linkRewriteVisitor env confluenceBaseUrl fileMap n =
          .replace (ADF.mk n.type n.attrs
            (some ({ mark0 with attrs := some (setAttr markAttrs "href"
              (confluenceBaseUrl ++ "/wiki/spaces/" ++ showOpt linkPage.spaceKey
                ++ "/pages/" ++ showOpt linkPage.pageId ++ env.urlHash href)) } :: restMarks))
            n.text n.content))) ∧
      (fileMap (env.urlPathname href ++ ".md") = none →
        linkRewriteVisitor env confluenceBaseUrl fileMap n =
          .replace (ADF.mk n.type n.attrs (some restMarks) n.text n.content)) := by
  refine ⟨?_, ?_⟩
  · intro linkPage hlp
    refine ⟨?_, ?_⟩
    · intro ht
      simp only [linkRewriteVisitor, htype, hmarks, hlink, hattrs, hhref, hwiki, hlp, ht]
      simp
    · intro ht
      have hbf : (n.text == some (env.urlPathname href)) = false := by
        cases hx : n.text == some (env.urlPathname href)
        · rfl
        · exact absurd (by simpa using hx) ht
      simp only [linkRewriteVisitor, htype, hmarks, hlink, hattrs, hhref, hwiki, hlp, hbf]
      simp
  · intro hlp
    simp only [linkRewriteVisitor, htype, hmarks, hlink, hattrs, hhref, hwiki, hlp]
    simp

/-- Environment for the C7 witness: the wikilink URL parser yields
pathname `docs/a` and fragment `#frag`. -/
def c7Env : Env :=
  { c1Env with urlPathname := fun _ => "docs/a", urlHash := fun _ => "#frag" }

/-- The link mark of the C7 witness node. -/
def c7Mark : Mark := { type := "link", attrs := some [("href", "wikilink:docs/a#frag")] }

/-- A text node holding a bare wikilink (visible text equals the path). -/
def c7Node : ADF := ADF.mk "text" [] (some [c7Mark]) (some "docs/a") none

/-- The resolved corpus document of the C7 witness. -/
def c7Page : AdfFile :=
  { c1File with fileName := "docs/a.md", spaceKey := some "SP", pageId := some "77" }

/-- The corpus filename map of the C7 witness. -/
def c7Map : String → Option AdfFile :=
  fun k => if k = "docs/a.md" then some c7Page else none

/-- C7 witness: the rewrite theorem applied at a concrete bare wikilink
node, once with the target present in the corpus map and once with it
absent. -/
theorem linkRewriteVisitor_spec_witness :
    ((∀ linkPage, c7Map (c7Env.urlPathname "wikilink:docs/a#frag" ++ ".md") = some linkPage →
      (c7Node.text = some (c7Env.urlPathname "wikilink:docs/a#frag") →
        linkRewriteVisitor c7Env "https://base" c7Map c7Node =
          .replace (ADF.mk "inlineCard"
            [("url", "https://base" ++ "/wiki/spaces/" ++ showOpt linkPage.spaceKey
              ++ "/pages/" ++ showOpt linkPage.pageId
              ++ c7Env.urlHash "wikilink:docs/a#frag")]
            none none c7Node.content)) ∧
      (c7Node.text ≠ some (c7Env.urlPathname "wikilink:docs/a#frag") →
        linkRewriteVisitor c7Env "https://base" c7Map c7Node =
          .replace (ADF.mk c7Node.type c7Node.attrs
            (some ({ c7Mark with attrs := some (setAttr [("href", "wikilink:docs/a#frag")] "href"
              ("https://base" ++ "/wiki/spaces/" ++ showOpt linkPage.spaceKey
                ++ "/pages/" ++ showOpt linkPage.pageId
                ++ c7Env.urlHash "wikilink:docs/a#frag")) } :: []))
            c7Node.text c7Node.content))) ∧
      (c7Map (c7Env.urlPathname "wikilink:docs/a#frag" ++ ".md") = none →
        linkRewriteVisitor c7Env "https://base" c7Map c7Node =
          .replace (ADF.mk c7Node.type c7Node.attrs (some []) c7Node.text c7Node.content))) ∧
    ((∀ linkPage, (fun _ => (none : Option AdfFile))
          (c7Env.urlPathname "wikilink:docs/a#frag" ++ ".md") = some linkPage →
      (c7Node.text = some (c7Env.urlPathname "wikilink:docs/a#frag") →
        linkRewriteVisitor c7Env "https://base" (fun _ => none) c7Node =
          .replace (ADF.mk "inlineCard"
            [("url", "https://base" ++ "/wiki/spaces/" ++ showOpt linkPage.spaceKey
              ++ "/pages/" ++ showOpt linkPage.pageId
              ++ c7Env.urlHash "wikilink:docs/a#frag")]
            none none c7Node.content)) ∧
      (c7Node.text ≠ some (c7Env.urlPathname "wikilink:docs/a#frag") →
        linkRewriteVisitor c7Env "https://base" (fun _ => none) c7Node =
          .replace (ADF.mk c7Node.type c7Node.attrs
            (some ({ c7Mark with attrs := some (setAttr [("href", "wikilink:docs/a#frag")] "href"
              ("https://base" ++ "/wiki/spaces/" ++ showOpt linkPage.spaceKey
                ++ "/pages/" ++ showOpt linkPage.pageId
                ++ c7Env.urlHash "wikilink:docs/a#frag")) } :: []))
            c7Node.text c7Node.content))) ∧
      ((fun _ => (none : Option AdfFile))
          (c7Env.urlPathname "wikilink:docs/a#frag" ++ ".md") = none →
        linkRewriteVisitor c7Env "https://base" (fun _ => none) c7Node =
          .replace (ADF.mk c7Node.type c7Node.attrs (some []) c7Node.text c7Node.content))) :=
  ⟨linkRewriteVisitor_spec c7Env "https://base" c7Map c7Node c7Mark []
      [("href", "wikilink:docs/a#frag")] "wikilink:docs/a#frag" rfl rfl rfl rfl rfl rfl,
    linkRewriteVisitor_spec c7Env "https://base" (fun _ => none) c7Node c7Mark []
      [("href", "wikilink:docs/a#frag")] "wikilink:docs/a#frag" rfl rfl rfl rfl rfl rfl⟩
